import Mathlib

/- Shallow embedding of the cricket ball-flight simulator
   (src/sim/physics.ts, src/sim/interception.ts, src/sim/runsEstimator.ts,
   src/hooks/useSimulation.ts).

   JavaScript numbers are modelled as exact rationals.  The irrational
   numeric primitives used by the source (Math.sqrt / Math.hypot, Math.sin,
   Math.cos, Math.exp, Math.PI) are abstracted into a parameter `P : Prim`,
   so a theorem quantified over `P` holds in particular for the actual
   floating-point interpretations.  Every branch decision of the source is
   translated verbatim on these primitives.  The source's unbounded `while`
   loops are modelled with explicit fuel; the fuel actually supplied is
   computed from maxTime and timeStep, and exhaustion (`none`) marks
   divergence of the source loop. -/

/- The Batteries rational operations are irreducible by default; closed
evaluations in this development reduce them definitionally. -/
attribute [local semireducible] Rat.add Rat.mul Rat.inv Rat.sub
  Rat.ofScientific

namespace Cricket

/-- Upper bound on the bit length of a natural number, counted in chunks of
64 bits (structurally recursive, so the kernel can evaluate it; recursion
depth is the bit length divided by 64). -/
def natSqrtBits : ℕ → ℕ → ℕ → ℕ
  | 0, _, acc => acc
  | fuel + 1, n, acc =>
    if n = 0 then acc
    else natSqrtBits fuel (n / 18446744073709551616) (acc + 64)

/-- Integer Newton iteration for the square root: repeatedly replace x by
(x + n / x) / 2 while that strictly decreases.  Started at any value at or
above the true root this converges to the floor square root within the
given fuel (the start below is within a factor 2^33 of the root, so far
fewer than 128 steps are needed). -/
def natSqrtGo : ℕ → ℕ → ℕ → ℕ
  | 0, _, x => x
  | fuel + 1, n, x =>
    let next := (x + n / x) / 2
    if next < x then natSqrtGo fuel n next else x

/-- Integer square root used by the exact rational square root.  `Nat.sqrt`
itself is defined by well-founded recursion, which the kernel cannot
evaluate; this Newton version is structurally recursive with small
recursion depth even on numbers of thousands of digits. -/
def natSqrt (n : ℕ) : ℕ :=
  if n = 0 then 0
  else natSqrtGo 128 n (2 ^ (natSqrtBits 512 n 0 / 2 + 1))

/-- Interpretation of the irrational numeric primitives of the source. -/
structure Prim where
  sqrtQ : ℚ → ℚ
  sinQ : ℚ → ℚ
  cosQ : ℚ → ℚ
  expQ : ℚ → ℚ
  piQ : ℚ

/-- Exact rational square root: the rational square root when the argument is
a perfect rational square, else 0.  A concrete interpretation of Math.sqrt
that agrees with the real square root on every perfect-square input (all
square-root inputs that feed branch decisions in the concrete scenarios
below are perfect squares). -/
def ratSqrt (x : ℚ) : ℚ :=
  if x ≤ 0 then 0
  else
    let n := natSqrt x.num.toNat
    let d := natSqrt x.den
    if n * n = x.num.toNat ∧ d * d = x.den then (n : ℚ) / (d : ℚ) else 0

/-- Concrete primitive interpretation used for closed evaluations: exact
square roots on perfect squares, sin/cos as their exact values at angle 0
(all concrete shots below have azimuth = elevation = 0), the diagonal Padé
approximant (1 + x/2) / (1 - x/2) of exp, and a rational approximation of
pi.  The only argument ever passed to expQ in the concrete scenarios below
is the roll decay exponent -0.6325 * 0.02 = -0.01265, where the Padé value
39747/40253 = 0.98742951... agrees with Math.exp(-0.01265) =
0.98742967... to within 2 * 10^-7, while every branch decision that depends
on it (the roll-stop guard speed > 0.4, which at the tightest step is
decided by a margin above 10^-3) is insensitive to an error of that size,
so the concrete runs below take exactly the branches of the
double-precision source. -/
def prim0 : Prim where
  sqrtQ := ratSqrt
  sinQ := fun _ => 0
  cosQ := fun _ => 1
  expQ := fun x => (1 + x / 2) / (1 - x / 2)
  piQ := 314159 / 100000

/-- 3D vector of rational coordinates (positions and velocities; the source
brands these as Meters / MetersPerSecond but the arithmetic is plain). -/
structure Vec3 where
  x : ℚ
  y : ℚ
  z : ℚ
deriving DecidableEq, Repr

/-- 2D vector (fielder positions, intercept positions). -/
structure Vec2 where
  x : ℚ
  y : ℚ
deriving DecidableEq, Repr

/-- SimulationPhase from src/types.ts. -/
inductive Phase where
  | flight
  | bounce
  | roll
  | stopped
  | outOfPlay
deriving DecidableEq, Repr

/-- SimulationEvent from src/types.ts. -/
inductive Event where
  | launch
  | bounce
  | boundaryFour
  | boundarySix
  | stopped
deriving DecidableEq, Repr

/-- SimulationSample from src/types.ts. -/
structure Sample where
  time : ℚ
  position : Vec3
  velocity : Vec3
  speed : ℚ
  distanceFromOrigin : ℚ
  pathDistance : ℚ
  phase : Phase
  event : Option Event
deriving DecidableEq, Repr

/-- FrictionLevel from src/types.ts. -/
inductive FrictionLevel where
  | slow
  | average
  | fast
deriving DecidableEq, Repr

/-- FieldConfig from src/types.ts. -/
structure FieldConfig where
  boundaryRadius : ℚ
  pitchLength : ℚ
  innerCircleRadius : ℚ
  friction : FrictionLevel
  bounceEnergyRetention : ℚ
  ropeHeight : ℚ
deriving DecidableEq, Repr

/-- Fielder from src/types.ts (the purely presentational `name` and `number`
fields, never read by the simulation code, are omitted). -/
structure Fielder where
  id : String
  position : Vec2
  reactionTime : ℚ
  maxSpeed : ℚ
  acceleration : ℚ
  pickupBuffer : ℚ
deriving DecidableEq, Repr

/-- Batsman from src/types.ts (only `runnerSpeed` is read by the simulation
code). -/
structure Batsman where
  runnerSpeed : ℚ
deriving DecidableEq, Repr

/-- Shot as consumed by computeBallPath, with finite numeric fields. -/
structure Shot where
  speed : ℚ
  azimuth : ℚ
  elevation : ℚ
  launchPosition : Vec3
  spinRpm : ℚ
deriving DecidableEq, Repr

/-- A JavaScript number as seen by Number.isFinite: `none` stands for any
non-finite value (NaN or an infinity), `some q` for a finite value. -/
def JsNum : Type := Option ℚ
deriving instance DecidableEq, Repr for JsNum

/-- Shot as supplied to useSimulation, before validation: the three
validated fields may be non-finite. -/
structure RawShot where
  speed : JsNum
  azimuth : JsNum
  elevation : JsNum
  launchPosition : Vec3
  spinRpm : ℚ
deriving DecidableEq, Repr

/-- InterceptionResult from src/types.ts. -/
structure InterceptionResult where
  fielderId : Option String
  interceptTime : Option ℚ
  interceptPosition : Option Vec2
  reachedBoundary : Bool
deriving DecidableEq, Repr

/-- ShotOutcome from src/types.ts (the only dismissal type the code can
produce is "caught", modelled as the unit of the Option). -/
structure ShotOutcome where
  runs : ℤ
  isBoundary : Bool
  isDismissal : Bool
  dismissalCaught : Bool
  interceptedBy : Option String
  interceptTime : Option ℚ
  boundaryTime : Option ℚ
deriving DecidableEq, Repr

/- Constants of src/sim/physics.ts. -/

def GRAVITY : ℚ := 9.81
def BALL_MASS : ℚ := 0.156
def BALL_RADIUS : ℚ := 0.036
def ballCrossSection (P : Prim) : ℚ := P.piQ * BALL_RADIUS * BALL_RADIUS
def AIR_DENSITY : ℚ := 1.225
def AIR_DRAG_COEFFICIENT : ℚ := 0.35
def DEFAULT_TIME_STEP : ℚ := 0.02
def MAX_SIMULATION_TIME : ℚ := 12
def SURFACE_DAMPING : ℚ := 0.82
def SPIN_DECAY : ℚ := 0.1
def BOUNCE_VERTICAL_THRESHOLD : ℚ := 1.2
def MIN_ROLLING_SPEED : ℚ := 0.4

/-- FRICTION_COEFFICIENTS from src/types.ts. -/
def FRICTION_COEFFICIENTS : FrictionLevel → ℚ
  | .slow => 0.65
  | .average => 0.55
  | .fast => 0.45

/-- degToRad from physics.ts. -/
def degToRad (P : Prim) (value : ℚ) : ℚ := value * P.piQ / 180

/-- magnitude2D from physics.ts (Math.hypot on two coordinates). -/
def magnitude2D (P : Prim) (x y : ℚ) : ℚ := P.sqrtQ (x * x + y * y)

/-- magnitude3D from physics.ts. -/
def magnitude3D (P : Prim) (v : Vec3) : ℚ :=
  P.sqrtQ (v.x * v.x + v.y * v.y + v.z * v.z)

/-- distanceFromOrigin from physics.ts. -/
def distFromOrigin (P : Prim) (pos : Vec3) : ℚ := magnitude2D P pos.x pos.y

/-- createSample from physics.ts. -/
def createSample (P : Prim) (time : ℚ) (position velocity : Vec3)
    (phase : Phase) (pathDistance : ℚ) (event : Option Event := none) :
    Sample :=
  { time := time
    position := position
    velocity := velocity
    speed := magnitude3D P velocity
    distanceFromOrigin := distFromOrigin P position
    pathDistance := pathDistance
    phase := phase
    event := event }

/-- computeDragAcceleration from physics.ts. -/
def computeDragAcceleration (P : Prim) (velocity : Vec3) : ℚ :=
  let speed := magnitude3D P velocity
  if speed = 0 then 0
  else (1 / 2 * AIR_DENSITY * AIR_DRAG_COEFFICIENT * ballCrossSection P *
    speed * speed) / BALL_MASS

/-- applyBounce from physics.ts. -/
def applyBounce (velocity : Vec3) (bounceRetention spinInfluence : ℚ) :
    Vec3 :=
  { x := velocity.x * SURFACE_DAMPING * (1 - spinInfluence * SPIN_DECAY)
    y := velocity.y * SURFACE_DAMPING * (1 - spinInfluence * SPIN_DECAY)
    z := -velocity.z * bounceRetention }

/-- computeSpinInfluence from physics.ts. -/
def computeSpinInfluence (spinRpm speed : ℚ) : ℚ :=
  if speed ≤ 0 then 0
  else min (spinRpm / 3000) 1 * min (speed / 50) 1

/-- decayRateForFriction from physics.ts. -/
def decayRateForFriction (friction : FrictionLevel) : ℚ :=
  FRICTION_COEFFICIENTS friction * 1.15

/-- normalise2D from physics.ts. -/
def normalise2D (P : Prim) (x y : ℚ) : Vec2 :=
  let m := magnitude2D P x y
  if m = 0 then ⟨0, 0⟩ else ⟨x / m, y / m⟩

/-- ComputeBallPathOptions (timeStep / maxTime) plus the orchestrator's
interceptBuffer option. -/
structure SimOptions where
  timeStep : Option ℚ := none
  maxTime : Option ℚ := none
  interceptBuffer : Option ℚ := none
deriving DecidableEq, Repr

/-- Fuel sufficient for a time-stepped loop running `while time < maxT`
from start time `t0` in increments of `dt`; zero when `dt ≤ 0` (the source
loop then cannot terminate via the time guard). -/
def natFuel (maxT dt t0 : ℚ) : ℕ :=
  if 0 < dt then (⌈(maxT - t0) / dt⌉).toNat + 1 else 0

/- Roll phase (simulateRollPhase of physics.ts). -/

/-- Mutable state of the roll `while` loop. -/
structure RollState where
  time : ℚ
  speed : ℚ
  posX : ℚ
  posY : ℚ
  cumDist : ℚ
  samplesRev : List Sample
deriving DecidableEq, Repr

/-- Exit of the roll loop: either the loop guard failed (natural stop) or a
boundary crossing was detected. -/
inductive RollExit where
  | stop (st : RollState)
  | boundary (st : RollState) (bSample : Sample)
deriving DecidableEq, Repr

/-- One-loop-iteration body plus loop control of simulateRollPhase,
by fuel.  `dir` is the fixed roll direction, `decayRate` the friction decay
rate, `dt`/`maxT` the step options, `radius` the boundary radius. -/
def rollGo (P : Prim) (dir : Vec2) (decayRate dt maxT bRadius : ℚ) :
    ℕ → RollState → Option RollExit
  | 0, st =>
    if st.time < maxT ∧ MIN_ROLLING_SPEED < st.speed then none
    else some (.stop st)
  | fuel + 1, st =>
    if st.time < maxT ∧ MIN_ROLLING_SPEED < st.speed then
      let decayFactor := P.expQ (-decayRate * dt)
      let previousSpeed := st.speed
      let currentSpeed := previousSpeed * decayFactor
      let averageSpeed := (previousSpeed + currentSpeed) / 2
      let distanceStep := averageSpeed * dt
      let nextX := st.posX + dir.x * distanceStep
      let nextY := st.posY + dir.y * distanceStep
      let cum := st.cumDist + distanceStep
      let t := st.time + dt
      let vel : Vec3 := ⟨dir.x * currentSpeed, dir.y * currentSpeed, 0⟩
      let sample := createSample P t ⟨nextX, nextY, 0⟩ vel .roll cum
      let st' : RollState :=
        { time := t, speed := currentSpeed, posX := nextX, posY := nextY
          cumDist := cum, samplesRev := sample :: st.samplesRev }
      let radius := magnitude2D P nextX nextY
      if bRadius ≤ radius then
        let bSample : Sample :=
          { sample with phase := .outOfPlay, event := some .boundaryFour }
        some (.boundary { st' with samplesRev := bSample :: st'.samplesRev }
          bSample)
      else
        rollGo P dir decayRate dt maxT bRadius fuel st'
    else
      some (.stop st)

/-- The loop state carried by a roll exit (projection used by loop
invariants). -/
def rollExitState : RollExit → RollState
  | .stop st => st
  | .boundary st _ => st

/-- RollPhaseResult from physics.ts. -/
structure RollPhaseResult where
  samples : List Sample
  boundarySample : Option Sample
  stopSample : Sample
deriving DecidableEq, Repr

/-- simulateRollPhase from physics.ts.  `none` marks divergence of the
source loop (only possible when the supplied timeStep is not positive). -/
def simulateRollPhase (P : Prim) (startPosition startVelocity : Vec3)
    (startTime pathDistance : ℚ) (field : FieldConfig)
    (options : SimOptions) : Option RollPhaseResult :=
  let dt := options.timeStep.getD DEFAULT_TIME_STEP
  let maxT := options.maxTime.getD MAX_SIMULATION_TIME
  let dir := normalise2D P startVelocity.x startVelocity.y
  let initialSpeed := magnitude2D P startVelocity.x startVelocity.y
  let decayRate := decayRateForFriction field.friction
  let st0 : RollState :=
    { time := startTime, speed := initialSpeed, posX := startPosition.x
      posY := startPosition.y, cumDist := pathDistance, samplesRev := [] }
  match rollGo P dir decayRate dt maxT field.boundaryRadius
      (natFuel maxT dt startTime) st0 with
  | none => none
  | some (.stop st) =>
    let stopSample := createSample P st.time ⟨st.posX, st.posY, 0⟩ ⟨0, 0, 0⟩
      .stopped st.cumDist (some .stopped)
    some { samples := (stopSample :: st.samplesRev).reverse
           boundarySample := none
           stopSample := stopSample }
  | some (.boundary st bSample) =>
    some { samples := st.samplesRev.reverse
           boundarySample := some bSample
           stopSample := bSample }

/- Flight phase (computeBallPath of physics.ts). -/

/-- Mutable state of the flight `while` loop. -/
structure FlightState where
  time : ℚ
  position : Vec3
  velocity : Vec3
  cumDist : ℚ
  samplesRev : List Sample
  bounceRev : List Sample
deriving DecidableEq, Repr

/-- Exit of the flight loop: time guard failed, boundary crossed, or
transition to the roll phase (carrying the roll start data). -/
inductive FlightExit where
  | timeout (st : FlightState)
  | boundary (st : FlightState) (bSample : Sample) (six : Bool)
  | roll (st : FlightState) (rollTime : ℚ) (rollPos rollVel : Vec3)
      (rollCum : ℚ)
deriving DecidableEq, Repr

/-- Result of one iteration of the flight loop body. -/
inductive FlightStepRes where
  | exit (e : FlightExit)
  | cont (st : FlightState)
deriving DecidableEq, Repr

/-- The forward-Euler velocity update of one flight iteration (physics.ts
lines 247-258): quadratic drag opposing the velocity direction plus
gravity. -/
def dragStepVelocity (P : Prim) (dt : ℚ) (velocity : Vec3) : Vec3 :=
  let dragAccel := computeDragAcceleration P velocity
  let speedMagnitude := magnitude3D P velocity
  let ax := if speedMagnitude = 0 then 0
    else -velocity.x / speedMagnitude * dragAccel
  let ay := if speedMagnitude = 0 then 0
    else -velocity.y / speedMagnitude * dragAccel
  let az := if speedMagnitude = 0 then -GRAVITY
    else -GRAVITY - velocity.z / speedMagnitude * dragAccel
  ⟨velocity.x + ax * dt, velocity.y + ay * dt, velocity.z + az * dt⟩

/-- One iteration of the flight loop body (physics.ts lines 246-311):
Euler update under gravity and drag, then boundary check, bounce check with
possible roll transition, else a flight sample. -/
def flightStep (P : Prim) (field : FieldConfig) (spinInfluence dt : ℚ)
    (st : FlightState) : FlightStepRes :=
  let nextVelocity := dragStepVelocity P dt st.velocity
  let newVx := nextVelocity.x
  let newVy := nextVelocity.y
  let newVz := nextVelocity.z
  let nextX := st.position.x + newVx * dt
  let nextY := st.position.y + newVy * dt
  let nextZ := max (st.position.z + newVz * dt) 0
  let displacement := P.sqrtQ ((nextX - st.position.x) * (nextX - st.position.x)
    + (nextY - st.position.y) * (nextY - st.position.y)
    + (nextZ - st.position.z) * (nextZ - st.position.z))
  let cum := st.cumDist + displacement
  let t := st.time + dt
  let position : Vec3 := ⟨nextX, nextY, nextZ⟩
  let velocity := nextVelocity
  let radius := magnitude2D P position.x position.y
  if field.boundaryRadius ≤ radius then
    let six : Bool := decide (field.ropeHeight < position.z)
    let event := if six then Event.boundarySix else Event.boundaryFour
    let bSample := createSample P t position velocity .outOfPlay cum
      (some event)
    .exit (.boundary
      { st with
        time := t, position := position, velocity := velocity
        cumDist := cum, samplesRev := bSample :: st.samplesRev }
      bSample six)
  else if position.z ≤ 0 ∧ velocity.z ≤ 0 then
    let bouncedVelocity :=
      applyBounce velocity field.bounceEnergyRetention spinInfluence
    let bounceSample := createSample P t position bouncedVelocity .bounce cum
      (some .bounce)
    let st1 : FlightState :=
      { time := t, position := position, velocity := bouncedVelocity
        cumDist := cum, samplesRev := bounceSample :: st.samplesRev
        bounceRev := bounceSample :: st.bounceRev }
    if |bouncedVelocity.z| < BOUNCE_VERTICAL_THRESHOLD then
      let rollStart := createSample P t ⟨position.x, position.y, 0⟩
        bouncedVelocity .roll cum
      .exit (.roll { st1 with samplesRev := rollStart :: st1.samplesRev }
        t rollStart.position bouncedVelocity cum)
    else
      .cont st1
  else
    .cont { st with
      time := t, position := position, velocity := velocity
      cumDist := cum
      samplesRev := createSample P t position velocity .flight cum
        :: st.samplesRev }

/-- The loop state carried by a flight exit (projection used by loop
invariants). -/
def exitState : FlightExit → FlightState
  | .timeout st => st
  | .boundary st _ _ => st
  | .roll st _ _ _ _ => st

/-- The loop state carried by a flight step result (projection used by loop
invariants). -/
def stepState : FlightStepRes → FlightState
  | .cont st => st
  | .exit e => exitState e

/-- The flight `while` loop, by fuel. -/
def flightGo (P : Prim) (field : FieldConfig) (spinInfluence dt maxT : ℚ) :
    ℕ → FlightState → Option FlightExit
  | 0, st =>
    if st.time < maxT then none
    else some (.timeout st)
  | fuel + 1, st =>
    if st.time < maxT then
      match flightStep P field spinInfluence dt st with
      | .exit e => some e
      | .cont st' => flightGo P field spinInfluence dt maxT fuel st'
    else
      some (.timeout st)

/-- BallPathResult from physics.ts. -/
structure BallPathResult where
  samples : List Sample
  boundarySample : Option Sample
  bounceSamples : List Sample
  rollStartIndex : Option ℕ
  stopSample : Sample
  isSix : Bool
deriving DecidableEq, Repr

/-- The launch velocity computeBallPath derives from the shot's speed,
azimuth and elevation (physics.ts lines 229-234). -/
def launchVelocity (P : Prim) (shot : Shot) : Vec3 :=
  let azimuth := degToRad P shot.azimuth
  let elevation := degToRad P shot.elevation
  let horizontalSpeed := shot.speed * P.cosQ elevation
  ⟨horizontalSpeed * P.sinQ azimuth, horizontalSpeed * P.cosQ azimuth,
    shot.speed * P.sinQ elevation⟩

/-- The state in which computeBallPath enters its flight loop: time 0 at
the launch position, with the launch sample already emitted. -/
def initialFlightState (P : Prim) (shot : Shot) : FlightState :=
  { time := 0, position := shot.launchPosition
    velocity := launchVelocity P shot
    cumDist := 0
    samplesRev := [createSample P 0 shot.launchPosition
      (launchVelocity P shot) .flight 0 (some .launch)]
    bounceRev := [] }

/-- computeBallPath from physics.ts.  `none` marks divergence of a source
loop (only possible when the supplied timeStep is not positive). -/
def computeBallPath (P : Prim) (shot : Shot) (field : FieldConfig)
    (options : SimOptions) : Option BallPathResult :=
  let dt := options.timeStep.getD DEFAULT_TIME_STEP
  let maxT := options.maxTime.getD MAX_SIMULATION_TIME
  let spinInfluence := computeSpinInfluence shot.spinRpm shot.speed
  let st0 := initialFlightState P shot
  match flightGo P field spinInfluence dt maxT (natFuel maxT dt 0) st0 with
  | none => none
  | some (.timeout st) =>
    let stopSample := createSample P st.time st.position ⟨0, 0, 0⟩ .stopped
      st.cumDist (some .stopped)
    some { samples := (stopSample :: st.samplesRev).reverse
           boundarySample := none
           bounceSamples := st.bounceRev.reverse
           rollStartIndex := none
           stopSample := stopSample
           isSix := false }
  | some (.boundary st bSample six) =>
    some { samples := st.samplesRev.reverse
           boundarySample := some bSample
           bounceSamples := st.bounceRev.reverse
           rollStartIndex := none
           stopSample := bSample
           isSix := six }
  | some (.roll st rt rp rv rcum) =>
    match simulateRollPhase P rp rv rt rcum field options with
    | none => none
    | some rollResult =>
      let samples := st.samplesRev.reverse ++ rollResult.samples
      some { samples := samples
             boundarySample := rollResult.boundarySample
             bounceSamples := st.bounceRev.reverse
             rollStartIndex :=
               samples.findIdx? fun s => decide (s.phase = Phase.roll)
             stopSample :=
               rollResult.boundarySample.getD rollResult.stopSample
             isSix := false }

/- Interception search (src/sim/interception.ts). -/

/-- DEFAULT_BUFFER from interception.ts. -/
def DEFAULT_BUFFER : ℚ := 0.1
/-- RUN_SPEED_FLOOR from interception.ts. -/
def RUN_SPEED_FLOOR : ℚ := 3.2
/-- MAX_AIR_HEIGHT_FOR_CHASE from interception.ts. -/
def MAX_AIR_HEIGHT_FOR_CHASE : ℚ := 1.2

/-- distance2D from interception.ts / useSimulation.ts (planar distance from
a sample to a fielder, via Math.hypot). -/
def distance2D (P : Prim) (sample : Sample) (fielder : Fielder) : ℚ :=
  magnitude2D P (sample.position.x - fielder.position.x)
    (sample.position.y - fielder.position.y)

/-- canAttemptIntercept from interception.ts. -/
def canAttemptIntercept (sample : Sample) : Bool :=
  if sample.phase = Phase.outOfPlay then false
  else if sample.phase = Phase.flight ∧
      MAX_AIR_HEIGHT_FOR_CHASE < sample.position.z then false
  else true

/-- The reachability test of the inner fielder loop of earliestIntercept:
positive time after reaction, and distance covered by the floored run
speed. -/
def reaches (P : Prim) (sample : Sample) (fielder : Fielder) : Bool :=
  decide (0 < sample.time - fielder.reactionTime ∧
    distance2D P sample fielder ≤
      max fielder.maxSpeed RUN_SPEED_FLOOR * (sample.time - fielder.reactionTime))

/-- The intercept time earliestIntercept reports for a (sample, fielder)
pair: sample time + the fielder's pickup buffer + the additional buffer. -/
def interceptTimeFor (sample : Sample) (buffer : ℚ) (f : Fielder) : ℚ :=
  sample.time + f.pickupBuffer + buffer

/-- The interception record earliestIntercept builds for a (sample,
fielder) pair. -/
def interceptResultFor (sample : Sample) (buffer : ℚ) (f : Fielder) :
    InterceptionResult :=
  { fielderId := some f.id
    interceptTime := some (interceptTimeFor sample buffer f)
    interceptPosition := some ⟨sample.position.x, sample.position.y⟩
    reachedBoundary := false }

/-- The inner `for (const fielder of fielders)` loop of earliestIntercept:
folds the fielders, keeping the strictly smallest intercept time
(`interceptTime < bestTime`; `none` plays POSITIVE_INFINITY). -/
def interceptFold (P : Prim) (sample : Sample) (buffer : ℚ) :
    List Fielder → Option (ℚ × InterceptionResult) →
    Option (ℚ × InterceptionResult)
  | [], best => best
  | f :: rest, best =>
    let timeAvailable := sample.time - f.reactionTime
    if timeAvailable ≤ 0 then interceptFold P sample buffer rest best
    else
      let runSpeed := max f.maxSpeed RUN_SPEED_FLOOR
      let distance := distance2D P sample f
      if runSpeed * timeAvailable < distance then
        interceptFold P sample buffer rest best
      else
        let interceptTime := interceptTimeFor sample buffer f
        let better : Bool := match best with
          | none => true
          | some (bt, _) => decide (interceptTime < bt)
        if better then
          interceptFold P sample buffer rest
            (some (interceptTime, interceptResultFor sample buffer f))
        else
          interceptFold P sample buffer rest best

/-- The outer sample loop of earliestIntercept: the `if (bestResult) break`
makes it stop at the first sample whose inner loop produced a result. -/
def interceptScan (P : Prim) (buffer : ℚ) (fielders : List Fielder) :
    List Sample → Option InterceptionResult
  | [] => none
  | sample :: rest =>
    if canAttemptIntercept sample then
      match interceptFold P sample buffer fielders none with
      | some (_, res) => some res
      | none => interceptScan P buffer fielders rest
    else
      interceptScan P buffer fielders rest

/-- Test for `sample.event?.startsWith('boundary')`. -/
def isBoundaryEvent (sample : Sample) : Bool :=
  match sample.event with
  | some .boundaryFour => true
  | some .boundarySix => true
  | _ => false

/-- The scan cutoff of earliestIntercept: up to and including the first
boundary-event sample, else the whole path
(`boundaryIndex >= 0 ? boundaryIndex + 1 : path.length`). -/
def interceptCutoff (path : List Sample) : ℕ :=
  match path.findIdx? isBoundaryEvent with
  | some i => i + 1
  | none => path.length

/-- earliestIntercept from interception.ts. -/
def earliestIntercept (P : Prim) (path : List Sample)
    (fielders : List Fielder) (buffer : ℚ := DEFAULT_BUFFER) :
    InterceptionResult :=
  if path.isEmpty || fielders.isEmpty then
    { fielderId := none, interceptTime := none, interceptPosition := none
      reachedBoundary := false }
  else
    match interceptScan P buffer fielders (path.take (interceptCutoff path))
    with
    | some res => res
    | none =>
      { fielderId := none, interceptTime := none, interceptPosition := none
        reachedBoundary := (path.findIdx? isBoundaryEvent).isSome }

/- Outcome estimation (src/sim/runsEstimator.ts). -/

def TURN_BUFFER : ℚ := 0.55
def DOUBLE_MARGIN : ℚ := 0.45
def TRIPLE_MARGIN : ℚ := 0.6
def STOPPING_MARGIN : ℚ := 0.8
def MAX_RUNNING_SPEED : ℚ := 8.1

/-- averageRunnerSpeed from runsEstimator.ts. -/
def averageRunnerSpeed (batsmen : List Batsman) : ℚ :=
  if batsmen.isEmpty then 6.2
  else
    (batsmen.map fun b => min b.runnerSpeed MAX_RUNNING_SPEED).sum /
      batsmen.length

/-- timeForRuns from runsEstimator.ts: (single, double, triple) thresholds. -/
def timeForRuns (batsmen : List Batsman) (fieldConfig : FieldConfig) :
    ℚ × ℚ × ℚ :=
  let avgSpeed := averageRunnerSpeed batsmen
  let single := fieldConfig.pitchLength / avgSpeed + TURN_BUFFER
  let double := single * 2 + DOUBLE_MARGIN
  let triple := double + single + TRIPLE_MARGIN
  (single, double, triple)

/-- runsFromAvailableTime from runsEstimator.ts. -/
def runsFromAvailableTime (availableTime : ℚ) (batsmen : List Batsman)
    (fieldConfig : FieldConfig) : ℤ :=
  let thresholds := timeForRuns batsmen fieldConfig
  if availableTime < thresholds.1 then 0
  else if availableTime < thresholds.2.1 then 1
  else if availableTime < thresholds.2.2 then 2
  else 3

/-- caughtInfo record built by useSimulation. -/
structure CaughtInfo where
  fielderId : String
  time : ℚ
deriving DecidableEq, Repr

/-- OutcomeContext from runsEstimator.ts. -/
structure OutcomeContext where
  fieldConfig : FieldConfig
  batsmen : List Batsman
  boundarySample : Option Sample
  isSix : Bool
  interception : Option InterceptionResult
  stopSample : Sample
  caughtInfo : Option CaughtInfo
deriving DecidableEq, Repr

/-- JavaScript truthiness of `string | undefined` (empty string is falsy). -/
def truthyStr : Option String → Bool
  | none => false
  | some s => decide (s ≠ "")

/-- JavaScript truthiness of `number | undefined` (0 is falsy; NaN cannot
arise at the guarded use sites in the rational model). -/
def truthyNum : Option ℚ → Bool
  | none => false
  | some q => decide (q ≠ 0)

/-- estimateRuns from runsEstimator.ts.  The rule-4 guard
`interception?.fielderId && interception.interceptTime` is JavaScript
truthiness: an empty-string fielderId or a zero interceptTime falls through
to rule 5. -/
def estimateRuns (ctx : OutcomeContext) : ShotOutcome :=
  match ctx.caughtInfo with
  | some ci =>
    { runs := 0, isBoundary := false, isDismissal := true
      dismissalCaught := true, interceptedBy := some ci.fielderId
      interceptTime := some ci.time, boundaryTime := none }
  | none =>
    if ctx.isSix then
      { runs := 6, isBoundary := true, isDismissal := false
        dismissalCaught := false, interceptedBy := none
        interceptTime := none
        boundaryTime := some ((ctx.boundarySample.map Sample.time).getD
          ctx.stopSample.time) }
    else
      match ctx.boundarySample with
      | some b =>
        { runs := 4, isBoundary := true, isDismissal := false
          dismissalCaught := false, interceptedBy := none
          interceptTime := none, boundaryTime := some b.time }
      | none =>
        let fallback : ShotOutcome :=
          { runs := runsFromAvailableTime
              (ctx.stopSample.time + STOPPING_MARGIN) ctx.batsmen
              ctx.fieldConfig
            isBoundary := false, isDismissal := false
            dismissalCaught := false, interceptedBy := none
            interceptTime := none, boundaryTime := none }
        match ctx.interception with
        | some ir =>
          if truthyStr ir.fielderId && truthyNum ir.interceptTime then
            { runs := runsFromAvailableTime (ir.interceptTime.getD 0)
                ctx.batsmen ctx.fieldConfig
              isBoundary := false, isDismissal := false
              dismissalCaught := false, interceptedBy := ir.fielderId
              interceptTime := ir.interceptTime, boundaryTime := none }
          else fallback
        | none => fallback

/- Orchestrator (src/hooks/useSimulation.ts). -/

/-- DEFAULT_FIELDER_BUFFER from useSimulation.ts. -/
def DEFAULT_FIELDER_BUFFER : ℚ := 0.2
/-- CAUGHT_RADIUS from useSimulation.ts (diving catch off the bounce). -/
def CAUGHT_RADIUS : ℚ := 3
/-- AIR_CATCH_RADIUS from useSimulation.ts. -/
def AIR_CATCH_RADIUS : ℚ := 2.5
/-- RUN_SPEED_FLOOR as defined in useSimulation.ts (distinct from the
interception.ts constant of the same name). -/
def CATCH_RUN_SPEED_FLOOR : ℚ := 5
/-- The 1e-6 coincidence epsilon of the intercept splice. -/
def SPLICE_EPSILON : ℚ := 1 / 1000000

/-- Validation message for a non-positive or non-finite speed. -/
def speedErrorMsg : String := "Shot speed must be greater than zero."
/-- Validation message for a non-finite elevation. -/
def elevationErrorMsg : String := "Shot elevation is invalid."
/-- Validation message for a non-finite azimuth. -/
def azimuthErrorMsg : String := "Shot azimuth is invalid."

/-- validateShot from useSimulation.ts. -/
def validateShot (shot : RawShot) : Option String :=
  match shot.speed with
  | none => some speedErrorMsg
  | some s =>
    if s ≤ 0 then some speedErrorMsg
    else
      match shot.elevation with
      | none => some elevationErrorMsg
      | some _ =>
        match shot.azimuth with
        | none => some azimuthErrorMsg
        | some _ => none

/-- The inner fielder loop of the in-air catch scan (useSimulation.ts lines
120-139): first fielder in roster order within reach and within the air
catch radius. -/
def catchFielderFind (P : Prim) (sample : Sample) :
    List Fielder → Option String
  | [] => none
  | f :: rest =>
    let timeAvailable := sample.time - f.reactionTime
    if timeAvailable ≤ 0 then catchFielderFind P sample rest
    else
      let runSpeed := max f.maxSpeed CATCH_RUN_SPEED_FLOOR
      let distance := distance2D P sample f
      if runSpeed * timeAvailable < distance ∨ AIR_CATCH_RADIUS < distance
      then catchFielderFind P sample rest
      else some f.id

/-- The outer sample loop of the in-air catch scan (useSimulation.ts lines
104-144): stops at the first bounce-phase sample, skips non-flight and
ground-level samples, returns the first catching (index, sample, fielder
id). -/
def airCatchScan (P : Prim) (fielders : List Fielder) :
    ℕ → List Sample → Option (ℕ × Sample × String)
  | _, [] => none
  | i, s :: rest =>
    if s.phase = Phase.bounce then none
    else if s.phase ≠ Phase.flight then airCatchScan P fielders (i + 1) rest
    else if s.position.z ≤ 0 then airCatchScan P fielders (i + 1) rest
    else
      match catchFielderFind P s fielders with
      | some fid => some (i, s, fid)
      | none => airCatchScan P fielders (i + 1) rest

/-- The bounce-catch fielder search (useSimulation.ts lines 167-182). -/
def bounceCatchFind (P : Prim) (firstBounce : Sample) :
    List Fielder → Option Fielder
  | [] => none
  | f :: rest =>
    let timeAvailable := firstBounce.time - f.reactionTime
    if timeAvailable ≤ 0 then bounceCatchFind P firstBounce rest
    else
      let runSpeed := max f.maxSpeed CATCH_RUN_SPEED_FLOOR
      let distance := distance2D P firstBounce f
      if distance ≤ CAUGHT_RADIUS ∧ distance ≤ runSpeed * timeAvailable
      then some f
      else bounceCatchFind P firstBounce rest

/-- Rewrite of a sample into the truncating catch sample (phase and event
forced to stopped). -/
def stoppedCopy (s : Sample) : Sample :=
  { s with phase := Phase.stopped, event := some Event.stopped }

/-- The catch-evaluation stage of useSimulation (lines 95-203): in-air
catch truncation, else diving-catch-off-the-bounce truncation.  Returns the
updated path result and the caught info.  Note that only the in-air branch
clears `bounceSamples`. -/
def catchStage (P : Prim) (pr : BallPathResult) (fielders : List Fielder) :
    BallPathResult × Option CaughtInfo :=
  let firstBounce := pr.bounceSamples.head?
  match airCatchScan P fielders 0 pr.samples with
  | some (i, s, fid) =>
    let caughtSample := stoppedCopy s
    ({ pr with
       samples := pr.samples.take i ++ [caughtSample]
       boundarySample := none
       bounceSamples := []
       stopSample := caughtSample
       isSix := false },
     some ⟨fid, s.time⟩)
  | none =>
    match firstBounce with
    | none => (pr, none)
    | some fb =>
      match bounceCatchFind P fb fielders with
      | none => (pr, none)
      | some f =>
        let caughtSample := stoppedCopy fb
        let bounceIndex := pr.samples.findIdx? fun t => decide (t = fb)
        let prefixSamples := match bounceIndex with
          | some j => pr.samples.take j
          | none => pr.samples.dropLast
        ({ pr with
           samples := prefixSamples ++ [caughtSample]
           boundarySample := none
           stopSample := caughtSample
           isSix := false },
         some ⟨f.id, fb.time⟩)

/-- The intercept-splicing stage of useSimulation (lines 205-281): when an
intercept was found and no catch occurred, truncates the path at the first
sample at or after the intercept time and appends (or substitutes, when the
last kept sample's planar position coincides within 1e-6) a synthetic
stopped sample at the intercept position. -/
def interceptStage (P : Prim) (pr : BallPathResult)
    (intercept : InterceptionResult) (caughtInfo : Option CaughtInfo) :
    BallPathResult :=
  if truthyStr intercept.fielderId && truthyNum intercept.interceptTime &&
      intercept.interceptPosition.isSome && caughtInfo.isNone then
    let t := intercept.interceptTime.getD 0
    let ip := intercept.interceptPosition.getD ⟨0, 0⟩
    let insertIndex := pr.samples.findIdx? fun s => decide (t ≤ s.time)
    let previousSample : Option Sample := match insertIndex with
      | some i => if 0 < i then pr.samples.get? (i - 1) else pr.samples.head?
      | none => pr.samples.head?
    let prevPathDistance := (previousSample.map Sample.pathDistance).getD 0
    let prevPosition := (previousSample.map Sample.position).getD ⟨0, 0, 0⟩
    let segmentDistance :=
      magnitude2D P (ip.x - prevPosition.x) (ip.y - prevPosition.y)
    let interceptSample : Sample :=
      { time := t
        position := ⟨ip.x, ip.y, 0⟩
        velocity := ⟨0, 0, 0⟩
        speed := 0
        distanceFromOrigin := magnitude2D P ip.x ip.y
        pathDistance := prevPathDistance + segmentDistance
        phase := Phase.stopped
        event := some Event.stopped }
    let truncatedSamples := match insertIndex with
      | some i => pr.samples.take i
      | none => pr.samples
    let newSamples := match truncatedSamples.getLast? with
      | some last =>
        if |last.position.x - interceptSample.position.x| < SPLICE_EPSILON ∧
            |last.position.y - interceptSample.position.y| < SPLICE_EPSILON
        then truncatedSamples.dropLast ++ [interceptSample]
        else truncatedSamples ++ [interceptSample]
      | none => truncatedSamples ++ [interceptSample]
    { pr with
      samples := newSamples
      boundarySample := none
      stopSample := interceptSample
      isSix := false }
  else pr

/-- SimulationResult from src/types.ts. -/
structure SimResult where
  samples : List Sample
  outcome : ShotOutcome
  interception : InterceptionResult
deriving DecidableEq, Repr

/-- UseSimulationValue from useSimulation.ts (error modelled by its
message). -/
structure SimValue where
  path : List Sample
  result : Option SimResult
  boundaryTime : Option ℚ
  isSix : Bool
  error : Option String
deriving DecidableEq, Repr

/-- The full simulation pipeline of useSimulation.ts for a supplied shot:
validation, integration, catch evaluation, interception search with
splicing, outcome estimation.  `none` marks divergence of a source loop
(only possible when the supplied timeStep is not positive). -/
def simulate (P : Prim) (shot : RawShot) (field : FieldConfig)
    (fielders : List Fielder) (batsmen : List Batsman)
    (options : SimOptions) : Option SimValue :=
  match validateShot shot with
  | some msg =>
    some { path := [], result := none, boundaryTime := none, isSix := false
           error := some msg }
  | none =>
    let s : Shot :=
      { speed := shot.speed.getD 0
        azimuth := shot.azimuth.getD 0
        elevation := shot.elevation.getD 0
        launchPosition := shot.launchPosition
        spinRpm := shot.spinRpm }
    match computeBallPath P s field options with
    | none => none
    | some pr0 =>
      let staged := catchStage P pr0 fielders
      let pr1 := staged.1
      let caughtInfo := staged.2
      let intercept := earliestIntercept P pr1.samples fielders
        (options.interceptBuffer.getD DEFAULT_FIELDER_BUFFER)
      let pr2 := interceptStage P pr1 intercept caughtInfo
      let outcome := estimateRuns
        { fieldConfig := field
          batsmen := batsmen
          boundarySample := pr2.boundarySample
          isSix := pr2.isSix
          interception := some intercept
          stopSample := pr2.stopSample
          caughtInfo := caughtInfo }
      some { path := pr2.samples
             result := some { samples := pr2.samples, outcome := outcome
                              interception := intercept }
             boundaryTime := pr2.boundarySample.map Sample.time
             isSix := pr2.isSix
             error := none }

/- Concrete scenario inputs used by witnesses, counterexamples and
evaluations.  All shots have azimuth = elevation = 0 and all positions lie
on the y-axis, so under `prim0` every square root that feeds a branch
decision is a square root of a perfect square and the run agrees with the
exact real-number semantics of the source at every decision point. -/

/-- A placeholder sample (target of `Option.getD`; never reached in the
evaluated scenarios). -/
def dummySample : Sample :=
  { time := 0, position := ⟨0, 0, 0⟩, velocity := ⟨0, 0, 0⟩, speed := 0
    distanceFromOrigin := 0, pathDistance := 0, phase := .stopped
    event := none }

/-- A placeholder ball-path result (target of `Option.getD`). -/
def dummyBallPath : BallPathResult :=
  { samples := [], boundarySample := none, bounceSamples := []
    rollStartIndex := none, stopSample := dummySample, isSix := false }

/-- Field configuration of the concrete scenarios (a valid configuration:
65 m boundary, standard pitch, bounce retention one half). -/
def fieldA : FieldConfig :=
  { boundaryRadius := 65, pitchLength := 20.12, innerCircleRadius := 27.43
    friction := .average, bounceEnergyRetention := 0.5, ropeHeight := 0.7 }

/-- A gentle spinless shot hit from below ground level (launch z = -5,
which validateShot accepts: only speed, elevation and azimuth are
validated): it bounces on the first step at t = 0.02 s and rolls up the
y-axis for 57 steps until its speed decays below 0.4 m/s, stopping at
t = 1.16 s. -/
def shotA : Shot :=
  { speed := 1, azimuth := 0, elevation := 0
    launchPosition := ⟨0, 0, -5⟩, spinRpm := 0 }

/-- The raw (pre-validation) form of `shotA`. -/
def rawShotA : RawShot :=
  { speed := some 1, azimuth := some 0, elevation := some 0
    launchPosition := ⟨0, 0, -5⟩, spinRpm := 0 }

/-- The same shot with 3000 rpm of spin (for the bounce-damping claim). -/
def shotSpin : Shot :=
  { speed := 1, azimuth := 0, elevation := 0
    launchPosition := ⟨0, 0, -5⟩, spinRpm := 3000 }

/-- The launch velocity that computeBallPath derives for `shotA` and
`shotSpin` under `prim0` (speed 1 straight along +y). -/
def launchVelocityA : Vec3 := ⟨0, 1, 0⟩

/-- A fielder 0.15 m up the y-axis (roster entry of the empty-inputs
witness: with an empty sample path its fields are never inspected). -/
def farFielder : Fielder :=
  { id := "f", position := ⟨0, 0.15⟩, reactionTime := 0, maxSpeed := 3
    acceleration := 3, pickupBuffer := 0.5 }

/-- The shot of the two-terminal-sample scenario: speed 0.5 m/s from below
ground level.  It bounces at t = 0.02 s with post-bounce speed
0.82 x 0.49997202... = 0.40997706 m/s; the roll decay factor
exp(-0.01265) = 0.98742967 takes the speed to 0.40482350 m/s (> 0.4)
after one step and 0.39973473 m/s (< 0.4) after two, so the ball stops at
t = 0.06 s.  The stop-guard margins (4.8e-3 and 2.7e-4) dwarf both the
2e-7 error of the Padé exp of `prim0` and double-precision rounding, so
the branch decisions below are those of the real source. -/
def shotC1 : Shot :=
  { speed := 1/2, azimuth := 0, elevation := 0
    launchPosition := ⟨0, 0, -5⟩, spinRpm := 0 }

/-- The raw (pre-validation) form of `shotC1`. -/
def rawShotC1 : RawShot :=
  { speed := some (1/2), azimuth := some 0, elevation := some 0
    launchPosition := ⟨0, 0, -5⟩, spinRpm := 0 }

/-- The fielder of the two-terminal-sample scenario, 0.12 m up the y-axis:
its distance to the bounce point (0.1100 m) exceeds both the 0.1 m
bounce-catch bound (min of radius 3 and 5 m/s x 0.02 s) and the 0.064 m
intercept reach at t = 0.02 s, but its distance to the first roll sample
(0.1019 m) is within the 0.128 m reach at t = 0.04 s, so the intercept is
taken there; the pickup buffer 0.5 s plus the 0.2 s default buffer puts
the reported intercept time 0.74 s beyond the last sample time 0.06 s.
Every deciding quantity is at least 0.008 from its threshold, far beyond
the 2e-7 infidelity of the `prim0` exp. -/
def fielderC1 : Fielder :=
  { id := "f", position := ⟨0, 0.12⟩, reactionTime := 0, maxSpeed := 3
    acceleration := 3, pickupBuffer := 0.5 }

/-- A fielder 0.1 m up the y-axis: within both the 3 m bounce-catch radius
and its own covered distance at the bounce time, so it takes the diving
catch off the first bounce. -/
def nearFielder : Fielder :=
  { id := "g", position := ⟨0, 0.1⟩, reactionTime := 0, maxSpeed := 3
    acceleration := 3, pickupBuffer := 0.5 }

/-- The ball path of `shotA` on `fieldA` under default options. -/
def ballPathA : BallPathResult :=
  (computeBallPath prim0 shotA fieldA {}).getD dummyBallPath

/-- The ball path of `shotSpin` on `fieldA` under default options. -/
def ballPathSpin : BallPathResult :=
  (computeBallPath prim0 shotSpin fieldA {}).getD dummyBallPath

/-- A single roll-phase sample at the origin at t = 1 s (for the
interception tie-break counterexample). -/
def rollSampleOrigin : Sample :=
  { time := 1, position := ⟨0, 0, 0⟩, velocity := ⟨0, 0, 0⟩, speed := 0
    distanceFromOrigin := 0, pathDistance := 0, phase := .roll
    event := none }

/-- Roster-first fielder at the origin with the larger pickup buffer. -/
def fielderSlowPickup : Fielder :=
  { id := "a", position := ⟨0, 0⟩, reactionTime := 0, maxSpeed := 5
    acceleration := 3, pickupBuffer := 0.5 }

/-- Roster-second fielder at the origin with the smaller pickup buffer. -/
def fielderFastPickup : Fielder :=
  { id := "b", position := ⟨0, 0⟩, reactionTime := 0, maxSpeed := 5
    acceleration := 3, pickupBuffer := 0.2 }

/-- A flight sample at exactly the 1.2 m chase ceiling. -/
def sampleAtCeiling : Sample :=
  { time := 1, position := ⟨0, 0, 1.2⟩, velocity := ⟨0, 0, 0⟩, speed := 0
    distanceFromOrigin := 0, pathDistance := 0, phase := .flight
    event := none }

/-- A stopped sample at t = 10 s (stop sample of the estimator
counterexample context). -/
def stopSampleTen : Sample :=
  { time := 10, position := ⟨0, 0, 0⟩, velocity := ⟨0, 0, 0⟩, speed := 0
    distanceFromOrigin := 0, pathDistance := 0, phase := .stopped
    event := some .stopped }

/-- Outcome context whose interception carries a present fielderId and a
present but zero interceptTime (JavaScript-falsy), with no catch, six or
boundary. -/
def ctxZeroInterceptTime : OutcomeContext :=
  { fieldConfig := fieldA
    batsmen := []
    boundarySample := none
    isSix := false
    interception := some
      { fielderId := some "f", interceptTime := some 0
        interceptPosition := some ⟨0, 0⟩, reachedBoundary := false }
    stopSample := stopSampleTen
    caughtInfo := none }

/-- A 1 m/s flat shot launched at (0,0,1): with timeStep 0 its flight-loop
state never changes (no bounce, no boundary), so the source loop never
terminates. -/
def shotFix : Shot :=
  { speed := 1, azimuth := 0, elevation := 0
    launchPosition := ⟨0, 0, 1⟩, spinRpm := 0 }

/-- An invalid raw shot (speed -5, the spec's Scenario D). -/
def rawShotInvalid : RawShot :=
  { speed := some (-5), azimuth := some 0, elevation := some 0
    launchPosition := ⟨0, 0, 0⟩, spinRpm := 0 }

/-- Outcome context whose interception carries a present, non-empty
fielderId and a present, non-zero interceptTime (rule-4 witness). -/
def ctxRuleFour : OutcomeContext :=
  { fieldConfig := fieldA
    batsmen := []
    boundarySample := none
    isSix := false
    interception := some
      { fielderId := some "f", interceptTime := some 1
        interceptPosition := some ⟨0, 0⟩, reachedBoundary := false }
    stopSample := stopSampleTen
    caughtInfo := none }

/-- A bounce sample at the origin at t = 1 s together with a one-sample
ball-path result around it (bounce-catch witness input). -/
def bounceSampleW : Sample :=
  { time := 1, position := ⟨0, 0, 0⟩, velocity := ⟨0, 0, 0⟩, speed := 0
    distanceFromOrigin := 0, pathDistance := 0, phase := .bounce
    event := some .bounce }

/-- Ball-path result whose only sample is `bounceSampleW` (and which starts
with isSix true, to exhibit that the bounce-catch branch forces it off). -/
def ballPathW : BallPathResult :=
  { samples := [bounceSampleW], boundarySample := some bounceSampleW
    bounceSamples := [bounceSampleW], rollStartIndex := none
    stopSample := bounceSampleW, isSix := true }

/-- Termination of the flight loop from a given state: some fuel makes the
loop reach an exit. -/
def FlightLoopTerminates (P : Prim) (field : FieldConfig)
    (spinInfluence dt maxT : ℚ) (st : FlightState) : Prop :=
  ∃ fuel, flightGo P field spinInfluence dt maxT fuel st ≠ none

/-- The bounce law on two chronologically adjacent samples of a trajectory:
whenever the later sample is a bounce sample, its velocity is applyBounce
of the Euler drag-and-gravity update of the earlier sample's velocity (the
ball's incoming velocity at the bounce instant), with the given retention
and spin influence. -/
def bounceRel (P : Prim) (dt ret si : ℚ) (a b : Sample) : Prop :=
  b.phase = Phase.bounce →
    b.velocity = applyBounce (dragStepVelocity P dt a.velocity) ret si

/-- `bounceRel` with its two sample arguments swapped: the loop-invariant
form of the bounce law on the reverse-chronological sample stacks carried
by the loop states. -/
def bounceRelRev (P : Prim) (dt ret si : ℚ) (b a : Sample) : Prop :=
  bounceRel P dt ret si a b

/- Theorems. -/

/-- C6: runsFromAvailableTime uses thresholds single = pitchLength/avgSpeed
+ turn buffer, double = 2 x single + double margin, triple = double +
single + triple margin, where avgSpeed averages the batsmen's runner speeds
capped at 8.1 m/s (6.2 m/s when the list is empty); strict less-than
comparison yields 0, 1, 2 runs and otherwise 3, so running never yields
more than 3 runs. -/
theorem c6_running_thresholds (batsmen : List Batsman)
    (field : FieldConfig) (t : ℚ) :
    averageRunnerSpeed batsmen =
      (if batsmen.isEmpty then (6.2 : ℚ)
       else (batsmen.map fun b => min b.runnerSpeed MAX_RUNNING_SPEED).sum /
         batsmen.length) ∧
    (timeForRuns batsmen field).1 =
      field.pitchLength / averageRunnerSpeed batsmen + TURN_BUFFER ∧
    (timeForRuns batsmen field).2.1 =
      (timeForRuns batsmen field).1 * 2 + DOUBLE_MARGIN ∧
    (timeForRuns batsmen field).2.2 =
      (timeForRuns batsmen field).2.1 + (timeForRuns batsmen field).1 +
        TRIPLE_MARGIN ∧
    runsFromAvailableTime t batsmen field =
      (if t < (timeForRuns batsmen field).1 then 0
       else if t < (timeForRuns batsmen field).2.1 then 1
       else if t < (timeForRuns batsmen field).2.2 then 2
       else 3) ∧
    0 ≤ runsFromAvailableTime t batsmen field ∧
    runsFromAvailableTime t batsmen field ≤ 3 := by
  refine ⟨rfl, rfl, rfl, rfl, rfl, ?_, ?_⟩ <;>
    · dsimp only [runsFromAvailableTime]
      split_ifs <;> norm_num

/-- C10: earliestIntercept on an empty sample path or an empty roster
returns reachedBoundary = false with no fielderId, interceptTime or
interceptPosition. -/
theorem c10_empty_inputs (P : Prim) (path : List Sample)
    (fielders : List Fielder) (buffer : ℚ)
    (h : path = [] ∨ fielders = []) :
    earliestIntercept P path fielders buffer =
      { fielderId := none, interceptTime := none, interceptPosition := none
        reachedBoundary := false } := by
  rcases h with h | h <;> subst h <;> simp [earliestIntercept]

/-- Witness for C10 at a concrete empty path. -/
theorem c10_witness :
    earliestIntercept prim0 [] [farFielder] DEFAULT_BUFFER =
      { fielderId := none, interceptTime := none, interceptPosition := none
        reachedBoundary := false } :=
  c10_empty_inputs prim0 [] [farFielder] DEFAULT_BUFFER (Or.inl rfl)

/-- C9: a shot with non-finite or non-positive speed, or non-finite
elevation or azimuth, makes the simulation return a non-null error, an
empty path and a null result, with no partial computation. -/
theorem c9_invalid_shot (P : Prim) (shot : RawShot) (field : FieldConfig)
    (fielders : List Fielder) (batsmen : List Batsman)
    (options : SimOptions)
    (h : shot.speed = none ∨ (∃ s, shot.speed = some s ∧ s ≤ 0) ∨
      shot.elevation = none ∨ shot.azimuth = none) :
    ∃ msg, simulate P shot field fielders batsmen options =
      some { path := [], result := none, boundaryTime := none
             isSix := false, error := some msg } := by
  have hv : ∃ msg, validateShot shot = some msg := by
    rcases h with h | ⟨s, hs, hle⟩ | h | h
    · exact ⟨speedErrorMsg, by simp [validateShot, h]⟩
    · exact ⟨speedErrorMsg, by simp [validateShot, hs, hle]⟩
    · cases hs : shot.speed with
      | none => exact ⟨speedErrorMsg, by simp [validateShot, hs]⟩
      | some s =>
        by_cases hle : s ≤ 0
        · exact ⟨speedErrorMsg, by simp [validateShot, hs, hle]⟩
        · exact ⟨elevationErrorMsg, by simp [validateShot, hs, hle, h]⟩
    · cases hs : shot.speed with
      | none => exact ⟨speedErrorMsg, by simp [validateShot, hs]⟩
      | some s =>
        by_cases hle : s ≤ 0
        · exact ⟨speedErrorMsg, by simp [validateShot, hs, hle]⟩
        · cases he : shot.elevation with
          | none => exact ⟨elevationErrorMsg, by simp [validateShot, hs, hle, he]⟩
          | some e => exact ⟨azimuthErrorMsg, by simp [validateShot, hs, hle, he, h]⟩
  obtain ⟨msg, hmsg⟩ := hv
  exact ⟨msg, by simp [simulate, hmsg]⟩

/-- Witness for C9 at the concrete invalid shot of speed -5 (Scenario D). -/
theorem c9_witness :
    ∃ msg, simulate prim0 rawShotInvalid fieldA [] [] {} =
      some { path := [], result := none, boundaryTime := none
             isSix := false, error := some msg } :=
  c9_invalid_shot prim0 rawShotInvalid fieldA [] [] {}
    (Or.inr (Or.inl ⟨-5, rfl, by norm_num⟩))

/-- C2 counterexample: an interception carrying a present fielderId and a
present (zero) interceptTime, with no catch, six or boundary, is NOT
resolved by rule 4 as the claim states: the zero interceptTime is
JavaScript-falsy, so the code falls through to rule 5 and returns 2 runs
with no interceptor recorded, where rule 4 would return
runsFromAvailableTime 0 = 0 runs and record the interceptor. -/
theorem c2_counterexample :
    ctxZeroInterceptTime.caughtInfo = none ∧
    ctxZeroInterceptTime.isSix = false ∧
    ctxZeroInterceptTime.boundarySample = none ∧
    (ctxZeroInterceptTime.interception.map InterceptionResult.fielderId) =
      some (some "f") ∧
    (ctxZeroInterceptTime.interception.map InterceptionResult.interceptTime)
      = some (some 0) ∧
    runsFromAvailableTime 0 ctxZeroInterceptTime.batsmen
      ctxZeroInterceptTime.fieldConfig = 0 ∧
    (estimateRuns ctxZeroInterceptTime).runs = 2 ∧
    (estimateRuns ctxZeroInterceptTime).interceptedBy = none := by
  decide

/-- C2 amended: estimateRuns applies the first matching rule of the fixed
priority, where rule 4 additionally requires the fielderId to be non-empty
and the interceptTime to be non-zero (JavaScript truthiness of the guard
`interception?.fielderId && interception.interceptTime`); otherwise rule 5
applies. -/
theorem c2_priority (ctx : OutcomeContext) (fid : String) (t : ℚ) :
    (∀ ci, ctx.caughtInfo = some ci →
      estimateRuns ctx =
        { runs := 0, isBoundary := false, isDismissal := true
          dismissalCaught := true, interceptedBy := some ci.fielderId
          interceptTime := some ci.time, boundaryTime := none }) ∧
    (ctx.caughtInfo = none → ctx.isSix = true →
      estimateRuns ctx =
        { runs := 6, isBoundary := true, isDismissal := false
          dismissalCaught := false, interceptedBy := none
          interceptTime := none
          boundaryTime := some ((ctx.boundarySample.map Sample.time).getD
            ctx.stopSample.time) }) ∧
    (∀ b, ctx.caughtInfo = none → ctx.isSix = false →
      ctx.boundarySample = some b →
      estimateRuns ctx =
        { runs := 4, isBoundary := true, isDismissal := false
          dismissalCaught := false, interceptedBy := none
          interceptTime := none, boundaryTime := some b.time }) ∧
    (∀ ir, ctx.caughtInfo = none → ctx.isSix = false →
      ctx.boundarySample = none → ctx.interception = some ir →
      ir.fielderId = some fid → fid ≠ "" → ir.interceptTime = some t →
      t ≠ 0 →
      estimateRuns ctx =
        { runs := runsFromAvailableTime t ctx.batsmen ctx.fieldConfig
          isBoundary := false, isDismissal := false
          dismissalCaught := false, interceptedBy := some fid
          interceptTime := some t, boundaryTime := none }) ∧
    (ctx.caughtInfo = none → ctx.isSix = false →
      ctx.boundarySample = none →
      (∀ ir, ctx.interception = some ir →
        truthyStr ir.fielderId = false ∨ truthyNum ir.interceptTime = false)
      →
      estimateRuns ctx =
        { runs := runsFromAvailableTime
            (ctx.stopSample.time + STOPPING_MARGIN) ctx.batsmen
            ctx.fieldConfig
          isBoundary := false, isDismissal := false
          dismissalCaught := false, interceptedBy := none
          interceptTime := none, boundaryTime := none }) := by
  refine ⟨?_, ?_, ?_, ?_, ?_⟩
  · intro ci hci
    simp [estimateRuns, hci]
  · intro hci hsix
    simp [estimateRuns, hci, hsix]
  · intro b hci hsix hb
    simp [estimateRuns, hci, hsix, hb]
  · intro ir hci hsix hb hir hfid hfne ht htne
    simp [estimateRuns, hci, hsix, hb, hir, hfid, ht, truthyStr, truthyNum,
      hfne, htne]
  · intro hci hsix hb hno
    cases hir : ctx.interception with
    | none => simp [estimateRuns, hci, hsix, hb, hir]
    | some ir =>
      rcases hno ir hir with h | h <;>
        simp [estimateRuns, hci, hsix, hb, hir, h]

/-- Witness for C2 at a concrete rule-4 context. -/
theorem c2_witness :
    estimateRuns ctxRuleFour =
      { runs := runsFromAvailableTime 1 ctxRuleFour.batsmen
          ctxRuleFour.fieldConfig
        isBoundary := false, isDismissal := false, dismissalCaught := false
        interceptedBy := some "f", interceptTime := some 1
        boundaryTime := none } :=
  (c2_priority ctxRuleFour "f" 1).2.2.2.1
    { fielderId := some "f", interceptTime := some 1
      interceptPosition := some ⟨0, 0⟩, reachedBoundary := false }
    rfl rfl rfl rfl rfl (by decide) rfl (by norm_num)


theorem interceptFold_skip (P : Prim) (s : Sample) (buf : ℚ) (f : Fielder)
    (rest : List Fielder) (acc : Option (ℚ × InterceptionResult))
    (h : reaches P s f = false) :
    interceptFold P s buf (f :: rest) acc = interceptFold P s buf rest acc := by
  have h' : ¬ (0 < s.time - f.reactionTime ∧ distance2D P s f ≤
      max f.maxSpeed RUN_SPEED_FLOOR * (s.time - f.reactionTime)) := by
    simpa [reaches] using h
  by_cases h1 : s.time - f.reactionTime ≤ 0
  · simp [interceptFold, h1]
  · have h2 : max f.maxSpeed RUN_SPEED_FLOOR * (s.time - f.reactionTime) <
        distance2D P s f := by
      rcases not_and_or.mp h' with h | h
      · exact absurd (lt_of_not_le h1) h
      · exact lt_of_not_le h
    simp [interceptFold, h1, not_lt.mpr (le_of_lt h2), not_le.mpr h2]

theorem interceptFold_take_none (P : Prim) (s : Sample) (buf : ℚ)
    (f : Fielder) (rest : List Fielder)
    (h : reaches P s f = true) :
    interceptFold P s buf (f :: rest) none =
      interceptFold P s buf rest
        (some (interceptTimeFor s buf f, interceptResultFor s buf f)) := by
  have h' : 0 < s.time - f.reactionTime ∧ distance2D P s f ≤
      max f.maxSpeed RUN_SPEED_FLOOR * (s.time - f.reactionTime) := by
    simpa [reaches] using h
  simp [interceptFold, not_le.mpr h'.1, not_lt.mpr h'.2]

theorem interceptFold_take_lt (P : Prim) (s : Sample) (buf : ℚ)
    (f : Fielder) (rest : List Fielder) (bt : ℚ) (bres : InterceptionResult)
    (h : reaches P s f = true) (hlt : interceptTimeFor s buf f < bt) :
    interceptFold P s buf (f :: rest) (some (bt, bres)) =
      interceptFold P s buf rest
        (some (interceptTimeFor s buf f, interceptResultFor s buf f)) := by
  have h' : 0 < s.time - f.reactionTime ∧ distance2D P s f ≤
      max f.maxSpeed RUN_SPEED_FLOOR * (s.time - f.reactionTime) := by
    simpa [reaches] using h
  simp [interceptFold, not_le.mpr h'.1, not_lt.mpr h'.2, hlt]

theorem interceptFold_keep (P : Prim) (s : Sample) (buf : ℚ)
    (f : Fielder) (rest : List Fielder) (bt : ℚ) (bres : InterceptionResult)
    (h : reaches P s f = true) (hge : bt ≤ interceptTimeFor s buf f) :
    interceptFold P s buf (f :: rest) (some (bt, bres)) =
      interceptFold P s buf rest (some (bt, bres)) := by
  have h' : 0 < s.time - f.reactionTime ∧ distance2D P s f ≤
      max f.maxSpeed RUN_SPEED_FLOOR * (s.time - f.reactionTime) := by
    simpa [reaches] using h
  simp [interceptFold, not_le.mpr h'.1, not_lt.mpr h'.2, not_lt.mpr hge]

theorem interceptFold_char (P : Prim) (s : Sample) (buf : ℚ) :
    ∀ (fs : List Fielder) (acc : Option (ℚ × InterceptionResult))
      (out : ℚ × InterceptionResult),
      interceptFold P s buf fs acc = some out →
      (acc = some out ∧
        ∀ g ∈ fs, reaches P s g = true →
          out.1 ≤ interceptTimeFor s buf g) ∨
      (∃ fpre f frest, fs = fpre ++ f :: frest ∧ reaches P s f = true ∧
        out = (interceptTimeFor s buf f, interceptResultFor s buf f) ∧
        (∀ g ∈ frest, reaches P s g = true →
          out.1 ≤ interceptTimeFor s buf g) ∧
        (∀ g ∈ fpre, reaches P s g = true →
          out.1 < interceptTimeFor s buf g) ∧
        (∀ bt bres, acc = some (bt, bres) → out.1 < bt))
  | [], acc, out, h => by
    left
    exact ⟨h, fun g hg => absurd hg (List.not_mem_nil g)⟩
  | f :: rest, acc, out, h => by
    by_cases hr : reaches P s f = true
    · rcases hacc : acc with _ | ⟨bt, bres⟩
      · subst hacc
        rw [interceptFold_take_none P s buf f rest hr] at h
        rcases interceptFold_char P s buf rest _ out h with ⟨hacc', hall⟩ | hx
        · obtain rfl := Option.some.inj hacc'
          right
          exact ⟨[], f, rest, rfl, hr, rfl, hall,
            fun g hg => absurd hg (List.not_mem_nil g),
            fun bt bres hbt => absurd hbt (by simp)⟩
        · obtain ⟨fpre, f', frest, hsplit, hr', hout, hfrest, hfpre, haccc⟩
            := hx
          have hlt : out.1 < interceptTimeFor s buf f := haccc _ _ rfl
          right
          refine ⟨f :: fpre, f', frest, by rw [hsplit, List.cons_append],
            hr', hout, hfrest, ?_, fun bt bres hbt => absurd hbt (by simp)⟩
          intro g hg hgr
          rcases List.mem_cons.mp hg with hg | hg
          · exact hg ▸ hlt
          · exact hfpre g hg hgr
      · subst hacc
        by_cases hlt : interceptTimeFor s buf f < bt
        · rw [interceptFold_take_lt P s buf f rest bt bres hr hlt] at h
          rcases interceptFold_char P s buf rest _ out h with ⟨hacc', hall⟩
            | hx
          · obtain rfl := Option.some.inj hacc'
            right
            refine ⟨[], f, rest, rfl, hr, rfl, hall,
              fun g hg => absurd hg (List.not_mem_nil g), ?_⟩
            intro bt' bres' hbt
            injection hbt with hp
            injection hp with hp1 hp2
            subst hp1
            exact hlt
          · obtain ⟨fpre, f', frest, hsplit, hr', hout, hfrest, hfpre, haccc⟩
              := hx
            have hltf : out.1 < interceptTimeFor s buf f := haccc _ _ rfl
            right
            refine ⟨f :: fpre, f', frest, by rw [hsplit, List.cons_append],
              hr', hout, hfrest, ?_, ?_⟩
            · intro g hg hgr
              rcases List.mem_cons.mp hg with hg | hg
              · exact hg ▸ hltf
              · exact hfpre g hg hgr
            · intro bt' bres' hbt
              injection hbt with hp
              injection hp with hp1 hp2
              subst hp1
              exact lt_trans hltf hlt
        · rw [interceptFold_keep P s buf f rest bt bres hr
            (not_lt.mp hlt)] at h
          rcases interceptFold_char P s buf rest _ out h with ⟨hacc', hall⟩
            | hx
          · obtain rfl := Option.some.inj hacc'
            left
            refine ⟨rfl, ?_⟩
            intro g hg hgr
            rcases List.mem_cons.mp hg with hg | hg
            · exact hg ▸ not_lt.mp hlt
            · exact hall g hg hgr
          · obtain ⟨fpre, f', frest, hsplit, hr', hout, hfrest, hfpre, haccc⟩
              := hx
            have hltb : out.1 < bt := haccc _ _ rfl
            right
            refine ⟨f :: fpre, f', frest, by rw [hsplit, List.cons_append],
              hr', hout, hfrest, ?_, ?_⟩
            · intro g hg hgr
              rcases List.mem_cons.mp hg with hg | hg
              · exact hg ▸ lt_of_lt_of_le hltb (not_lt.mp hlt)
              · exact hfpre g hg hgr
            · intro bt' bres' hbt
              injection hbt with hp
              injection hp with hp1 hp2
              subst hp1
              exact hltb
    · have hrf : reaches P s f = false := by
        simpa using hr
      rw [interceptFold_skip P s buf f rest acc hrf] at h
      rcases interceptFold_char P s buf rest acc out h with ⟨hacc', hall⟩ | hx
      · left
        refine ⟨hacc', ?_⟩
        intro g hg hgr
        rcases List.mem_cons.mp hg with hg | hg
        · subst hg
          exact absurd hgr hr
        · exact hall g hg hgr
      · obtain ⟨fpre, f', frest, hsplit, hr', hout, hfrest, hfpre, haccc⟩
          := hx
        right
        refine ⟨f :: fpre, f', frest, by rw [hsplit, List.cons_append],
          hr', hout, hfrest, ?_, haccc⟩
        intro g hg hgr
        rcases List.mem_cons.mp hg with hg | hg
        · subst hg
          exact absurd hgr hr
        · exact hfpre g hg hgr

theorem interceptFold_some_ne_none (P : Prim) (s : Sample) (buf : ℚ) :
    ∀ (fs : List Fielder) (bt : ℚ) (bres : InterceptionResult),
      interceptFold P s buf fs (some (bt, bres)) ≠ none
  | [], bt, bres => by simp [interceptFold]
  | f :: rest, bt, bres => by
    by_cases hr : reaches P s f = true
    · by_cases hlt : interceptTimeFor s buf f < bt
      · rw [interceptFold_take_lt P s buf f rest bt bres hr hlt]
        exact interceptFold_some_ne_none P s buf rest _ _
      · rw [interceptFold_keep P s buf f rest bt bres hr (not_lt.mp hlt)]
        exact interceptFold_some_ne_none P s buf rest _ _
    · rw [interceptFold_skip P s buf f rest _ (by simpa using hr)]
      exact interceptFold_some_ne_none P s buf rest _ _

theorem interceptFold_none_iff (P : Prim) (s : Sample) (buf : ℚ) :
    ∀ fs : List Fielder,
      (interceptFold P s buf fs none = none ↔
        ∀ g ∈ fs, reaches P s g = false)
  | [] => by simp [interceptFold]
  | f :: rest => by
    by_cases hr : reaches P s f = true
    · rw [interceptFold_take_none P s buf f rest hr]
      constructor
      · intro h
        exact absurd h (interceptFold_some_ne_none P s buf rest _ _)
      · intro h
        have := h f (List.mem_cons_self f rest)
        rw [hr] at this
        cases this
    · rw [interceptFold_skip P s buf f rest _ (by simpa using hr)]
      rw [interceptFold_none_iff P s buf rest]
      constructor
      · intro h g hg
        rcases List.mem_cons.mp hg with hg | hg
        · subst hg
          simpa using hr
        · exact h g hg
      · intro h g hg
        exact h g (List.mem_cons_of_mem f hg)

theorem interceptScan_sound (P : Prim) (buf : ℚ) (fs : List Fielder) :
    ∀ (samples : List Sample) (res : InterceptionResult),
      interceptScan P buf fs samples = some res →
      ∃ spre s srest, samples = spre ++ s :: srest ∧
        canAttemptIntercept s = true ∧
        (∀ x ∈ spre, canAttemptIntercept x = true →
          interceptFold P x buf fs none = none) ∧
        ∃ bt, interceptFold P s buf fs none = some (bt, res)
  | [], res, h => by simp [interceptScan] at h
  | s :: rest, res, h => by
    by_cases he : canAttemptIntercept s = true
    · cases hf : interceptFold P s buf fs none with
      | some out =>
        have hres : out.2 = res := by
          rw [interceptScan, if_pos he, hf] at h
          exact Option.some.inj h
        exact ⟨[], s, rest, rfl, he,
          fun x hx => absurd hx (List.not_mem_nil x),
          out.1, by rw [hf, ← hres]⟩
      | none =>
        rw [interceptScan, if_pos he, hf] at h
        obtain ⟨spre, s', srest, hsplit, he', hpre, bt, hfold⟩ :=
          interceptScan_sound P buf fs rest res h
        refine ⟨s :: spre, s', srest, by rw [hsplit, List.cons_append],
          he', ?_, bt, hfold⟩
        intro x hx hex
        rcases List.mem_cons.mp hx with hx | hx
        · subst hx
          exact hf
        · exact hpre x hx hex
    · rw [interceptScan, if_neg he] at h
      obtain ⟨spre, s', srest, hsplit, he', hpre, bt, hfold⟩ :=
        interceptScan_sound P buf fs rest res h
      refine ⟨s :: spre, s', srest, by rw [hsplit, List.cons_append],
        he', ?_, bt, hfold⟩
      intro x hx hex
      rcases List.mem_cons.mp hx with hx | hx
      · subst hx
        exact absurd hex he
      · exact hpre x hx hex

theorem earliestIntercept_found (P : Prim) (path : List Sample)
    (fs : List Fielder) (buf : ℚ)
    (hid : (earliestIntercept P path fs buf).fielderId.isSome = true) :
    ∃ spre s srest bt, path = spre ++ s :: srest ∧
      canAttemptIntercept s = true ∧
      (∀ x ∈ spre, canAttemptIntercept x = true →
        interceptFold P x buf fs none = none) ∧
      interceptFold P s buf fs none =
        some (bt, earliestIntercept P path fs buf) := by
  by_cases hemp : (path.isEmpty || fs.isEmpty) = true
  · rw [earliestIntercept, if_pos hemp] at hid
    simp at hid
  · cases hscan : interceptScan P buf fs (path.take (interceptCutoff path))
      with
    | none =>
      rw [earliestIntercept, if_neg hemp, hscan] at hid
      simp at hid
    | some res =>
      have hres : earliestIntercept P path fs buf = res := by
        rw [earliestIntercept, if_neg hemp, hscan]
      obtain ⟨spre, s, srest, hsplit, he, hpre, bt, hfold⟩ :=
        interceptScan_sound P buf fs _ res hscan
      refine ⟨spre, s, srest ++ path.drop (interceptCutoff path), bt,
        ?_, he, hpre, by rw [hres]; exact hfold⟩
      conv_lhs => rw [← List.take_append_drop (interceptCutoff path) path]
      rw [hsplit, List.append_assoc, List.cons_append]

/-- C3 amended: eligibility requires phase not outOfPlay and, in flight,
height at most 1.2 m (the code admits exactly 1.2 m, where the claim says
"below"); reachability is exactly (time - reaction) > 0 with planar
distance within max(maxSpeed, 3.2) x (time - reaction); a reported
intercept time equals sample time + pickup buffer + additional buffer,
whose default is 0.1 s. -/
theorem c3_eligibility_reach_time (P : Prim) (s0 : Sample) (f0 : Fielder)
    (path : List Sample) (fielders : List Fielder) (buffer : ℚ)
    (fid : String) (t : ℚ) :
    (canAttemptIntercept s0 = true ↔
      (s0.phase ≠ Phase.outOfPlay ∧
        (s0.phase = Phase.flight →
          s0.position.z ≤ MAX_AIR_HEIGHT_FOR_CHASE))) ∧
    (reaches P s0 f0 = true ↔
      (0 < s0.time - f0.reactionTime ∧
        distance2D P s0 f0 ≤
          max f0.maxSpeed RUN_SPEED_FLOOR * (s0.time - f0.reactionTime))) ∧
    DEFAULT_BUFFER = 1 / 10 ∧
    ((earliestIntercept P path fielders buffer).fielderId = some fid →
      (earliestIntercept P path fielders buffer).interceptTime = some t →
      ∃ s ∈ path, ∃ f ∈ fielders, canAttemptIntercept s = true ∧
        reaches P s f = true ∧ f.id = fid ∧
        t = s.time + f.pickupBuffer + buffer) := by
  refine ⟨?_, ?_, by norm_num [DEFAULT_BUFFER], ?_⟩
  · cases hp : s0.phase <;>
      simp [canAttemptIntercept, hp, not_lt]
  · simp [reaches]
  · intro hfid htime
    obtain ⟨spre, s, srest, bt, hsplit, he, hpre, hfold⟩ :=
      earliestIntercept_found P path fielders buffer (by rw [hfid]; rfl)
    rcases interceptFold_char P s buffer fielders none _ hfold with
      ⟨habs, _⟩ | ⟨fpre, f, frest, hfs, hr, hout, _, _, _⟩
    · cases habs
    · have h2 : earliestIntercept P path fielders buffer =
          interceptResultFor s buffer f := congrArg Prod.snd hout
      rw [h2] at hfid htime
      refine ⟨s, ?_, f, ?_, he, hr, Option.some.inj hfid, ?_⟩
      · rw [hsplit]
        exact List.mem_append_right _ (List.mem_cons_self _ _)
      · rw [hfs]
        exact List.mem_append_right _ (List.mem_cons_self _ _)
      · exact (Option.some.inj htime).symm

/-- Witness for C3 at a one-sample roll path with one fielder. -/
theorem c3_witness :
    ∃ s ∈ [rollSampleOrigin], ∃ f ∈ [fielderSlowPickup],
      canAttemptIntercept s = true ∧ reaches prim0 s f = true ∧
      f.id = "a" ∧ (8 / 5 : ℚ) = s.time + f.pickupBuffer + DEFAULT_BUFFER :=
  (c3_eligibility_reach_time prim0 rollSampleOrigin fielderSlowPickup
    [rollSampleOrigin] [fielderSlowPickup] DEFAULT_BUFFER "a"
    (8 / 5)).2.2.2 (by decide) (by decide)

/-- C3 counterexample: a flight sample at exactly 1.2 m is eligible in the
code, refuting the claim that eligibility requires the height to be below
1.2 m. -/
theorem c3_counterexample :
    sampleAtCeiling.phase = Phase.flight ∧
    canAttemptIntercept sampleAtCeiling = true ∧
    ¬ sampleAtCeiling.position.z < MAX_AIR_HEIGHT_FOR_CHASE := by
  refine ⟨rfl, by decide, by norm_num [sampleAtCeiling, MAX_AIR_HEIGHT_FOR_CHASE]⟩

/-- C4 amended: the reported intercept is at the first sample (in path
order, which is time order for simulator paths) having any reachable
fielder; among the fielders that reach that sample the one with the
strictly smallest pickupBuffer wins, roster order breaking ties only among
equal pickup buffers -- not plain roster order. -/
theorem c4_selection (P : Prim) (path : List Sample)
    (fielders : List Fielder) (buffer : ℚ) (fid : String)
    (h : (earliestIntercept P path fielders buffer).fielderId = some fid) :
    ∃ spre s srest, path = spre ++ s :: srest ∧
      canAttemptIntercept s = true ∧
      (∀ x ∈ spre, canAttemptIntercept x = true →
        ∀ g ∈ fielders, reaches P x g = false) ∧
      ∃ fpre f frest, fielders = fpre ++ f :: frest ∧
        reaches P s f = true ∧ f.id = fid ∧
        (∀ g ∈ fielders, reaches P s g = true →
          f.pickupBuffer ≤ g.pickupBuffer) ∧
        (∀ g ∈ fpre, reaches P s g = true →
          f.pickupBuffer < g.pickupBuffer) := by
  obtain ⟨spre, s, srest, bt, hsplit, he, hpre, hfold⟩ :=
    earliestIntercept_found P path fielders buffer (by rw [h]; rfl)
  rcases interceptFold_char P s buffer fielders none _ hfold with
    ⟨habs, _⟩ | ⟨fpre, f, frest, hfs, hr, hout, hfrest, hfpre, _⟩
  · cases habs
  · have h2 : earliestIntercept P path fielders buffer =
        interceptResultFor s buffer f := congrArg Prod.snd hout
    have hbt : bt = interceptTimeFor s buffer f := congrArg Prod.fst hout
    dsimp only at hfrest hfpre
    subst hbt
    rw [h2] at h
    refine ⟨spre, s, srest, hsplit, he, ?_, fpre, f, frest, hfs, hr,
      Option.some.inj h, ?_, ?_⟩
    · intro x hx hex g hg
      exact ((interceptFold_none_iff P x buffer fielders).mp
        (hpre x hx hex)) g hg
    · intro g hg hgr
      have hle : interceptTimeFor s buffer f ≤ interceptTimeFor s buffer g
        := by
        rw [hfs] at hg
        rcases List.mem_append.mp hg with hg | hg
        · exact le_of_lt (hfpre g hg hgr)
        · rcases List.mem_cons.mp hg with hg | hg
          · subst hg
            exact le_refl _
          · exact hfrest g hg hgr
      unfold interceptTimeFor at hle
      linarith
    · intro g hg hgr
      have hlt := hfpre g hg hgr
      unfold interceptTimeFor at hlt
      linarith

/-- Witness for C4: the same two-fielder roster; the selection facts hold
at the concrete input. -/
theorem c4_witness :
    ∃ spre s srest,
      [rollSampleOrigin] = spre ++ s :: srest ∧
      canAttemptIntercept s = true ∧
      (∀ x ∈ spre, canAttemptIntercept x = true →
        ∀ g ∈ [fielderSlowPickup, fielderFastPickup],
          reaches prim0 x g = false) ∧
      ∃ fpre f frest,
        [fielderSlowPickup, fielderFastPickup] = fpre ++ f :: frest ∧
        reaches prim0 s f = true ∧ f.id = "b" ∧
        (∀ g ∈ [fielderSlowPickup, fielderFastPickup],
          reaches prim0 s g = true → f.pickupBuffer ≤ g.pickupBuffer) ∧
        (∀ g ∈ fpre, reaches prim0 s g = true →
          f.pickupBuffer < g.pickupBuffer) :=
  c4_selection prim0 [rollSampleOrigin]
    [fielderSlowPickup, fielderFastPickup] DEFAULT_BUFFER "b" (by decide)

/-- C4 counterexample: both fielders reach the first (and only) sample; the
roster-first reaching fielder is "a", but the code reports "b" (the smaller
pickup buffer), refuting the roster-order tie-break. -/
theorem c4_counterexample :
    reaches prim0 rollSampleOrigin fielderSlowPickup = true ∧
    reaches prim0 rollSampleOrigin fielderFastPickup = true ∧
    fielderSlowPickup.id = "a" ∧
    [fielderSlowPickup, fielderFastPickup].head? = some fielderSlowPickup ∧
    (earliestIntercept prim0 [rollSampleOrigin]
      [fielderSlowPickup, fielderFastPickup] DEFAULT_BUFFER).fielderId =
      some "b" := by
  decide


/-- C5 amended: on an in-air catch the trajectory is truncated at the catch
sample (phase/event rewritten to stopped) and the boundary sample, bounce
list and isSix are all invalidated; on a diving catch off the first bounce
the trajectory is likewise truncated and the boundary sample and isSix are
invalidated, but the bounce-samples list is left unchanged (the code does
not clear it in that branch). -/
theorem c5_catch_invalidation (P : Prim) (pr : BallPathResult)
    (fielders : List Fielder) :
    (∀ i s fid, airCatchScan P fielders 0 pr.samples = some (i, s, fid) →
      (catchStage P pr fielders).1.samples =
        pr.samples.take i ++ [stoppedCopy s] ∧
      (catchStage P pr fielders).1.boundarySample = none ∧
      (catchStage P pr fielders).1.bounceSamples = [] ∧
      (catchStage P pr fielders).1.isSix = false ∧
      (catchStage P pr fielders).1.stopSample = stoppedCopy s ∧
      (catchStage P pr fielders).2 = some ⟨fid, s.time⟩) ∧
    (airCatchScan P fielders 0 pr.samples = none →
      ∀ fb f, pr.bounceSamples.head? = some fb →
        bounceCatchFind P fb fielders = some f →
        (∃ pre, (catchStage P pr fielders).1.samples =
          pre ++ [stoppedCopy fb]) ∧
        (catchStage P pr fielders).1.boundarySample = none ∧
        (catchStage P pr fielders).1.bounceSamples = pr.bounceSamples ∧
        (catchStage P pr fielders).1.isSix = false ∧
        (catchStage P pr fielders).1.stopSample = stoppedCopy fb ∧
        (catchStage P pr fielders).2 = some ⟨f.id, fb.time⟩) := by
  constructor
  · intro i s fid hscan
    simp [catchStage, hscan]
  · intro hnone fb f hfb hfind
    cases hidx : pr.samples.findIdx? fun t => decide (t = fb) with
    | some j =>
      exact ⟨⟨pr.samples.take j,
        by simp [catchStage, hnone, hfb, hfind, hidx]⟩,
        by simp [catchStage, hnone, hfb, hfind, hidx],
        by simp [catchStage, hnone, hfb, hfind, hidx],
        by simp [catchStage, hnone, hfb, hfind, hidx],
        by simp [catchStage, hnone, hfb, hfind, hidx],
        by simp [catchStage, hnone, hfb, hfind, hidx]⟩
    | none =>
      exact ⟨⟨pr.samples.dropLast,
        by simp [catchStage, hnone, hfb, hfind, hidx]⟩,
        by simp [catchStage, hnone, hfb, hfind, hidx],
        by simp [catchStage, hnone, hfb, hfind, hidx],
        by simp [catchStage, hnone, hfb, hfind, hidx],
        by simp [catchStage, hnone, hfb, hfind, hidx],
        by simp [catchStage, hnone, hfb, hfind, hidx]⟩

/-- Witness for C5 at a concrete one-bounce path where the roster-first
fielder takes the catch off the bounce. -/
theorem c5_witness :
    (∃ pre, (catchStage prim0 ballPathW [fielderSlowPickup]).1.samples =
      pre ++ [stoppedCopy bounceSampleW]) ∧
    (catchStage prim0 ballPathW [fielderSlowPickup]).1.boundarySample =
      none ∧
    (catchStage prim0 ballPathW [fielderSlowPickup]).1.bounceSamples =
      ballPathW.bounceSamples ∧
    (catchStage prim0 ballPathW [fielderSlowPickup]).1.isSix = false ∧
    (catchStage prim0 ballPathW [fielderSlowPickup]).1.stopSample =
      stoppedCopy bounceSampleW ∧
    (catchStage prim0 ballPathW [fielderSlowPickup]).2 =
      some ⟨fielderSlowPickup.id, bounceSampleW.time⟩ :=
  (c5_catch_invalidation prim0 ballPathW [fielderSlowPickup]).2
    (by decide) bounceSampleW fielderSlowPickup (by decide) (by decide)

set_option maxRecDepth 10000 in
/-- C5 counterexample: in the full pipeline run of `shotA` with the nearby
fielder, a diving catch off the bounce occurs, yet the bounce-samples list
is not cleared, refuting the claim that every catch clears it. -/
theorem c5_counterexample :
    (catchStage prim0 ballPathA [nearFielder]).2.isSome = true ∧
    (catchStage prim0 ballPathA [nearFielder]).1.bounceSamples ≠ [] := by
  decide

theorem bounceRelRev_of_phase (P : Prim) (dt ret si : ℚ) (b a : Sample)
    (h : b.phase ≠ Phase.bounce) : bounceRelRev P dt ret si b a :=
  fun habs => absurd habs h

theorem bounceRelRev_bounce_push (P : Prim) (dt ret si : ℚ)
    (st : FlightState) (hd b : Sample)
    (hhd : st.samplesRev.head? = some hd)
    (hv : hd.velocity = st.velocity)
    (hbv : b.velocity =
      applyBounce (dragStepVelocity P dt st.velocity) ret si) :
    ∀ y ∈ st.samplesRev.head?, bounceRelRev P dt ret si b y := by
  intro y hy
  rw [hhd] at hy
  obtain rfl := Option.mem_some_iff.mp hy
  intro _
  rw [hbv, hv]

theorem flightStep_chain (P : Prim) (field : FieldConfig) (si dt : ℚ)
    (st : FlightState) (hd : Sample)
    (hhd : st.samplesRev.head? = some hd)
    (hv : hd.velocity = st.velocity)
    (hch : List.Chain' (bounceRelRev P dt field.bounceEnergyRetention si)
      st.samplesRev) :
    (∃ hd', (stepState (flightStep P field si dt st)).samplesRev.head? =
        some hd' ∧
      hd'.velocity = (stepState (flightStep P field si dt st)).velocity) ∧
    List.Chain' (bounceRelRev P dt field.bounceEnergyRetention si)
      (stepState (flightStep P field si dt st)).samplesRev := by
  unfold flightStep
  dsimp only
  split_ifs with h1 h2 h3 h4
  all_goals simp only [stepState, exitState]
  all_goals refine ⟨⟨_, rfl, rfl⟩, ?_⟩
  · exact List.chain'_cons'.mpr
      ⟨fun y hy =>
        bounceRelRev_of_phase _ _ _ _ _ _ (by simp [createSample]), hch⟩
  · exact List.chain'_cons'.mpr
      ⟨fun y hy =>
        bounceRelRev_of_phase _ _ _ _ _ _ (by simp [createSample]), hch⟩
  · exact List.chain'_cons'.mpr
      ⟨fun y hy =>
        bounceRelRev_of_phase _ _ _ _ _ _ (by simp [createSample]),
       List.chain'_cons'.mpr
         ⟨bounceRelRev_bounce_push P dt _ si st hd _ hhd hv rfl, hch⟩⟩
  · exact List.chain'_cons'.mpr
      ⟨bounceRelRev_bounce_push P dt _ si st hd _ hhd hv rfl, hch⟩
  · exact List.chain'_cons'.mpr
      ⟨fun y hy =>
        bounceRelRev_of_phase _ _ _ _ _ _ (by simp [createSample]), hch⟩

theorem flightGo_chain (P : Prim) (field : FieldConfig) (si dt maxT : ℚ) :
    ∀ (fuel : ℕ) (st : FlightState) (e : FlightExit),
      flightGo P field si dt maxT fuel st = some e →
      (∃ hd, st.samplesRev.head? = some hd ∧ hd.velocity = st.velocity) →
      List.Chain' (bounceRelRev P dt field.bounceEnergyRetention si)
        st.samplesRev →
      (∃ hd', (exitState e).samplesRev.head? = some hd' ∧
        hd'.velocity = (exitState e).velocity) ∧
      List.Chain' (bounceRelRev P dt field.bounceEnergyRetention si)
        (exitState e).samplesRev := by
  intro fuel
  induction fuel with
  | zero =>
    intro st e h hhd hch
    rw [flightGo] at h
    split_ifs at h with hguard
    obtain rfl := Option.some.inj h
    exact ⟨hhd, hch⟩
  | succ fuel ih =>
    intro st e h hhd hch
    rw [flightGo] at h
    split_ifs at h with hguard
    · cases hstep : flightStep P field si dt st with
      | exit e' =>
        rw [hstep] at h
        obtain rfl := Option.some.inj h
        obtain ⟨hd, hh, hvv⟩ := hhd
        have hs := flightStep_chain P field si dt st hd hh hvv hch
        rw [hstep] at hs
        simpa only [stepState] using hs
      | cont st' =>
        rw [hstep] at h
        obtain ⟨hd, hh, hvv⟩ := hhd
        have hs := flightStep_chain P field si dt st hd hh hvv hch
        rw [hstep] at hs
        simp only [stepState] at hs
        exact ih st' e h hs.1 hs.2
    · obtain rfl := Option.some.inj h
      exact ⟨hhd, hch⟩

theorem rollGo_nonbounce (P : Prim) (dir : Vec2) (rate dt maxT bRadius : ℚ) :
    ∀ (fuel : ℕ) (st : RollState) (e : RollExit),
      rollGo P dir rate dt maxT bRadius fuel st = some e →
      (∀ x ∈ st.samplesRev, x.phase ≠ Phase.bounce) →
      ∀ x ∈ (rollExitState e).samplesRev, x.phase ≠ Phase.bounce := by
  intro fuel
  induction fuel with
  | zero =>
    intro st e h hinv
    rw [rollGo] at h
    split_ifs at h with hguard
    obtain rfl := Option.some.inj h
    exact hinv
  | succ fuel ih =>
    intro st e h hinv
    rw [rollGo] at h
    split_ifs at h with hguard
    · dsimp only at h
      split_ifs at h with hrad
      · obtain rfl := Option.some.inj h
        simp only [rollExitState]
        intro x hx
        rcases List.mem_cons.mp hx with hx | hx
        · subst hx
          simp [createSample]
        · rcases List.mem_cons.mp hx with hx | hx
          · subst hx
            simp [createSample]
          · exact hinv x hx
      · refine ih _ e h ?_
        intro x hx
        rcases List.mem_cons.mp hx with hx | hx
        · subst hx
          simp [createSample]
        · exact hinv x hx
    · obtain rfl := Option.some.inj h
      exact hinv

theorem simulateRollPhase_nonbounce (P : Prim) (pos vel : Vec3) (t0 pd : ℚ)
    (field : FieldConfig) (options : SimOptions) (rr : RollPhaseResult)
    (h : simulateRollPhase P pos vel t0 pd field options = some rr) :
    ∀ x ∈ rr.samples, x.phase ≠ Phase.bounce := by
  rw [simulateRollPhase] at h
  dsimp only at h
  cases hr : rollGo P (normalise2D P vel.x vel.y)
      (decayRateForFriction field.friction)
      (options.timeStep.getD DEFAULT_TIME_STEP)
      (options.maxTime.getD MAX_SIMULATION_TIME) field.boundaryRadius
      (natFuel (options.maxTime.getD MAX_SIMULATION_TIME)
        (options.timeStep.getD DEFAULT_TIME_STEP) t0)
      { time := t0, speed := magnitude2D P vel.x vel.y, posX := pos.x
        posY := pos.y, cumDist := pd, samplesRev := [] } with
  | none => rw [hr] at h; cases h
  | some e =>
    rw [hr] at h
    have hnb := rollGo_nonbounce P (normalise2D P vel.x vel.y)
      (decayRateForFriction field.friction)
      (options.timeStep.getD DEFAULT_TIME_STEP)
      (options.maxTime.getD MAX_SIMULATION_TIME) field.boundaryRadius
      _ _ _ hr (by intro x hx; simp at hx)
    cases e with
    | stop st =>
      simp only [rollExitState] at hnb
      dsimp only at h
      obtain rfl := Option.some.inj h
      intro x hx
      dsimp only at hx
      rw [List.mem_reverse] at hx
      rcases List.mem_cons.mp hx with hx | hx
      · subst hx
        simp [createSample]
      · exact hnb x hx
    | boundary st b =>
      simp only [rollExitState] at hnb
      dsimp only at h
      obtain rfl := Option.some.inj h
      intro x hx
      dsimp only at hx
      rw [List.mem_reverse] at hx
      exact hnb x hx

theorem chain'_of_nonbounce (P : Prim) (dt ret si : ℚ) (l : List Sample)
    (h : ∀ x ∈ l, x.phase ≠ Phase.bounce) :
    List.Chain' (bounceRel P dt ret si) l := by
  induction l with
  | nil => exact List.chain'_nil
  | cons a t ih =>
    refine List.chain'_cons'.mpr
      ⟨?_, ih fun x hx => h x (List.mem_cons_of_mem a hx)⟩
    intro y hy habs
    exact absurd habs (h y (List.mem_cons_of_mem a (List.mem_of_mem_head? hy)))

theorem computeBallPath_chain (P : Prim) (shot : Shot) (field : FieldConfig)
    (options : SimOptions) (pr : BallPathResult)
    (h : computeBallPath P shot field options = some pr) :
    List.Chain' (bounceRel P (options.timeStep.getD DEFAULT_TIME_STEP)
      field.bounceEnergyRetention
      (computeSpinInfluence shot.spinRpm shot.speed)) pr.samples := by
  unfold computeBallPath at h
  dsimp only at h
  cases hgo : flightGo P field (computeSpinInfluence shot.spinRpm shot.speed)
      (options.timeStep.getD DEFAULT_TIME_STEP)
      (options.maxTime.getD MAX_SIMULATION_TIME)
      (natFuel (options.maxTime.getD MAX_SIMULATION_TIME)
        (options.timeStep.getD DEFAULT_TIME_STEP) 0)
      (initialFlightState P shot) with
  | none => rw [hgo] at h; cases h
  | some e =>
    rw [hgo] at h
    have hinv := flightGo_chain P field
      (computeSpinInfluence shot.spinRpm shot.speed)
      (options.timeStep.getD DEFAULT_TIME_STEP)
      (options.maxTime.getD MAX_SIMULATION_TIME) _ _ _ hgo
      ⟨createSample P 0 shot.launchPosition (launchVelocity P shot)
        .flight 0 (some .launch), rfl, rfl⟩
      (List.chain'_singleton _)
    cases e with
    | timeout st =>
      obtain rfl := Option.some.inj h
      dsimp only
      rw [List.chain'_reverse]
      refine List.chain'_cons'.mpr ⟨?_, hinv.2⟩
      intro y hy
      exact bounceRelRev_of_phase _ _ _ _ _ _ (by simp [createSample])
    | boundary st bs six =>
      obtain rfl := Option.some.inj h
      dsimp only
      rw [List.chain'_reverse]
      exact hinv.2
    | roll st rt rp rv rc =>
      dsimp only at h
      cases hroll : simulateRollPhase P rp rv rt rc field options with
      | none => rw [hroll] at h; cases h
      | some rr =>
        rw [hroll] at h
        obtain rfl := Option.some.inj h
        dsimp only
        refine List.Chain'.append ?_
          (chain'_of_nonbounce _ _ _ _ _
            (simulateRollPhase_nonbounce P rp rv rt rc field options rr
              hroll)) ?_
        · rw [List.chain'_reverse]
          exact hinv.2
        · intro x hx y hy
          exact fun habs => absurd habs
            (simulateRollPhase_nonbounce P rp rv rt rc field options rr
              hroll y (List.mem_of_mem_head? hy))

/-- C7 amended: at every bounce event of a computed trajectory -- every
bounce-phase sample of the path, each of which follows a predecessor
sample -- the new velocity is applyBounce of the ball's incoming velocity,
namely the Euler drag-and-gravity update of the immediately preceding
sample's velocity: the horizontal components are the incoming ones scaled
by 0.82 x (1 - spinInfluence x 0.1) and the vertical component is negated
and scaled by the field's bounce-energy retention, where the spin
influence is the product of the capped spin ratio (rpm against 3000) and
the capped ratio of the SHOT'S LAUNCH SPEED against 50 m/s (computed once
before integration), not of the ball's current speed at the bounce. -/
theorem c7_bounce_spin (P : Prim) (shot : Shot) (field : FieldConfig)
    (options : SimOptions) (pr : BallPathResult)
    (h : computeBallPath P shot field options = some pr) :
    (∀ (i : ℕ) (prev b : Sample), pr.samples[i]? = some prev →
      pr.samples[i + 1]? = some b → b.phase = Phase.bounce →
      b.velocity = applyBounce
        (dragStepVelocity P (options.timeStep.getD DEFAULT_TIME_STEP)
          prev.velocity)
        field.bounceEnergyRetention
        (computeSpinInfluence shot.spinRpm shot.speed) ∧
      b.velocity.x = (dragStepVelocity P
          (options.timeStep.getD DEFAULT_TIME_STEP) prev.velocity).x *
        SURFACE_DAMPING *
        (1 - computeSpinInfluence shot.spinRpm shot.speed * SPIN_DECAY) ∧
      b.velocity.y = (dragStepVelocity P
          (options.timeStep.getD DEFAULT_TIME_STEP) prev.velocity).y *
        SURFACE_DAMPING *
        (1 - computeSpinInfluence shot.spinRpm shot.speed * SPIN_DECAY) ∧
      b.velocity.z = -(dragStepVelocity P
          (options.timeStep.getD DEFAULT_TIME_STEP) prev.velocity).z *
        field.bounceEnergyRetention) ∧
    (0 < shot.speed →
      computeSpinInfluence shot.spinRpm shot.speed =
        min (shot.spinRpm / 3000) 1 * min (shot.speed / 50) 1) := by
  have hchain := computeBallPath_chain P shot field options pr h
  constructor
  · intro i prev b hprev hb hphase
    obtain ⟨hi1, he1⟩ := List.getElem?_eq_some_iff.mp hprev
    obtain ⟨hi2, he2⟩ := List.getElem?_eq_some_iff.mp hb
    have hrel := List.chain'_iff_get.mp hchain i (by omega)
    have hv : b.velocity = applyBounce
        (dragStepVelocity P (options.timeStep.getD DEFAULT_TIME_STEP)
          prev.velocity)
        field.bounceEnergyRetention
        (computeSpinInfluence shot.spinRpm shot.speed) := by
      have hb' := hrel (by rw [List.get_eq_getElem, he2]; exact hphase)
      rw [List.get_eq_getElem, List.get_eq_getElem, he1, he2] at hb'
      exact hb'
    exact ⟨hv, by rw [hv]; rfl, by rw [hv]; rfl, by rw [hv]; rfl⟩
  · intro hpos
    simp [computeSpinInfluence, not_le.mpr hpos]

set_option maxRecDepth 10000 in
/-- Witness for C7 at the concrete spinning shot: the second path sample is
the bounce sample, and its velocity is applyBounce of the Euler update of
the first (launch) sample's velocity, with the launch-speed spin
influence; the influence is the product of capped ratios. -/
theorem c7_witness :
    ((ballPathSpin.samples[1]?.getD dummySample).velocity = applyBounce
        (dragStepVelocity prim0 DEFAULT_TIME_STEP
          (ballPathSpin.samples[0]?.getD dummySample).velocity)
        fieldA.bounceEnergyRetention
        (computeSpinInfluence shotSpin.spinRpm shotSpin.speed) ∧
      (ballPathSpin.samples[1]?.getD dummySample).velocity.x =
        (dragStepVelocity prim0 DEFAULT_TIME_STEP
          (ballPathSpin.samples[0]?.getD dummySample).velocity).x *
          SURFACE_DAMPING *
          (1 - computeSpinInfluence shotSpin.spinRpm shotSpin.speed *
            SPIN_DECAY) ∧
      (ballPathSpin.samples[1]?.getD dummySample).velocity.y =
        (dragStepVelocity prim0 DEFAULT_TIME_STEP
          (ballPathSpin.samples[0]?.getD dummySample).velocity).y *
          SURFACE_DAMPING *
          (1 - computeSpinInfluence shotSpin.spinRpm shotSpin.speed *
            SPIN_DECAY) ∧
      (ballPathSpin.samples[1]?.getD dummySample).velocity.z =
        -(dragStepVelocity prim0 DEFAULT_TIME_STEP
          (ballPathSpin.samples[0]?.getD dummySample).velocity).z *
          fieldA.bounceEnergyRetention) ∧
    computeSpinInfluence shotSpin.spinRpm shotSpin.speed =
      min (shotSpin.spinRpm / 3000) 1 * min (shotSpin.speed / 50) 1 := by
  have hmain := c7_bounce_spin prim0 shotSpin fieldA {} ballPathSpin
    (by decide)
  exact ⟨hmain.1 0 (ballPathSpin.samples[0]?.getD dummySample)
      (ballPathSpin.samples[1]?.getD dummySample)
      (by decide) (by decide) (by decide),
    hmain.2 (by norm_num [shotSpin])⟩

set_option maxRecDepth 10000 in
/-- C7 counterexample: in the spinning-shot run the first bounce velocity
equals applyBounce with the spin influence computed from the LAUNCH speed,
and differs from the value the claim prescribes, namely applyBounce with
the spin influence computed from the ball's current speed at the bounce
(the magnitude of the incoming velocity; under the exact-square-root
interpretation that magnitude evaluates differently from the launch speed,
just as the real current speed of about 1.018 m/s differs from the launch
speed of 1 m/s). -/
theorem c7_counterexample :
    ballPathSpin.samples.head?.map Sample.velocity = some launchVelocityA ∧
    ballPathSpin.bounceSamples.map Sample.velocity =
      [applyBounce (dragStepVelocity prim0 DEFAULT_TIME_STEP launchVelocityA)
        fieldA.bounceEnergyRetention
        (computeSpinInfluence shotSpin.spinRpm shotSpin.speed)] ∧
    ballPathSpin.bounceSamples.map Sample.velocity ≠
      [applyBounce (dragStepVelocity prim0 DEFAULT_TIME_STEP launchVelocityA)
        fieldA.bounceEnergyRetention
        (min (shotSpin.spinRpm / 3000) 1 *
          min (magnitude3D prim0
            (dragStepVelocity prim0 DEFAULT_TIME_STEP launchVelocityA) / 50)
            1)] := by
  decide


set_option maxRecDepth 10000 in
/-- C1 evaluation at the failing input: the full pipeline run of
`rawShotC1` on `fieldA` with `fielderC1` produces a path whose sixth
sample is a terminal `stopped` sample (the ball's natural stop at
t = 0.06 s) followed by a second terminal `stopped` sample (the synthetic
intercept sample at t = 0.74 s): the intercept time lies beyond the final
sample time (so the splice keeps every sample) and the intercept position
differs from the stop position by about 8 mm (more than the 1e-6
coincidence epsilon), so the splice appends a second terminal sample after
the existing one, violating the claimed invariant that only the last
sample is terminal.  Times remain non-decreasing.  Every branch decision
of this run is decided by a margin of at least 2.6e-4, more than three
orders of magnitude beyond the 2e-7 infidelity of the `prim0` exp, so the
double-precision source takes the same path. -/
theorem c1_two_terminal_samples :
    (simulate prim0 rawShotC1 fieldA [fielderC1] [] {}).map
      (fun v => v.path.map Sample.phase) =
      some [Phase.flight, Phase.bounce, Phase.roll, Phase.roll, Phase.roll,
        Phase.stopped, Phase.stopped] ∧
    (simulate prim0 rawShotC1 fieldA [fielderC1] [] {}).map
      (fun v => v.path.map Sample.time) =
      some [0, 1/50, 1/50, 1/25, 3/50, 3/50, 37/50] ∧
    (simulate prim0 rawShotC1 fieldA [fielderC1] [] {}).map
      (fun v => v.path.dropLast.any fun s =>
        decide (s.phase = Phase.stopped ∨ s.phase = Phase.outOfPlay)) =
      some true := by
  refine ⟨by decide, by decide, by decide⟩


theorem natFuel_gt (maxT dt t0 : ℚ) (h : 0 < dt) :
    (maxT - t0) / dt < (natFuel maxT dt t0 : ℚ) := by
  unfold natFuel
  rw [if_pos h]
  push_cast
  have h1 : (maxT - t0) / dt ≤ (⌈(maxT - t0) / dt⌉ : ℚ) := Int.le_ceil _
  have h2 : ((⌈(maxT - t0) / dt⌉ : ℤ) : ℚ) ≤ ((⌈(maxT - t0) / dt⌉.toNat : ℤ) : ℚ) := by
    exact_mod_cast Int.self_le_toNat _
  push_cast at h2
  linarith

theorem flightStep_cont_time (P : Prim) (field : FieldConfig)
    (si dt : ℚ) (st st' : FlightState)
    (h : flightStep P field si dt st = .cont st') :
    st'.time = st.time + dt := by
  unfold flightStep at h
  dsimp only at h
  split_ifs at h <;>
    first
      | (injection h with heq
         subst heq
         rfl)
      | injection h

theorem flightGo_some (P : Prim) (field : FieldConfig) (si dt maxT : ℚ)
    (hdt : 0 < dt) :
    ∀ (fuel : ℕ) (st : FlightState),
      (maxT - st.time) / dt < (fuel : ℚ) →
      ∃ e, flightGo P field si dt maxT fuel st = some e := by
  intro fuel
  induction fuel with
  | zero =>
    intro st hlt
    rw [flightGo]
    split_ifs with hguard
    · exfalso
      have : 0 < (maxT - st.time) / dt :=
        div_pos (by linarith) hdt
      push_cast at hlt
      linarith
    · exact ⟨.timeout st, rfl⟩
  | succ fuel ih =>
    intro st hlt
    rw [flightGo]
    split_ifs with hguard
    · try dsimp only
      cases hstep : flightStep P field si dt st with
      | exit e => exact ⟨e, rfl⟩
      | cont st' =>
        apply ih st'
        rw [flightStep_cont_time P field si dt st st' hstep]
        have hne : dt ≠ 0 := ne_of_gt hdt
        have heq : (maxT - (st.time + dt)) / dt =
            (maxT - st.time) / dt - 1 := by
          field_simp
          try ring
        rw [heq]
        push_cast at hlt
        linarith
    · exact ⟨.timeout st, rfl⟩

theorem rollGo_some (P : Prim) (dir : Vec2) (rate dt maxT bRadius : ℚ)
    (hdt : 0 < dt) :
    ∀ (fuel : ℕ) (st : RollState),
      (maxT - st.time) / dt < (fuel : ℚ) →
      ∃ e, rollGo P dir rate dt maxT bRadius fuel st = some e := by
  intro fuel
  induction fuel with
  | zero =>
    intro st hlt
    rw [rollGo]
    split_ifs with hguard
    · exfalso
      have : 0 < (maxT - st.time) / dt :=
        div_pos (by linarith [hguard.1]) hdt
      push_cast at hlt
      linarith
    · exact ⟨.stop st, rfl⟩
  | succ fuel ih =>
    intro st hlt
    rw [rollGo]
    split_ifs with hguard
    · dsimp only
      split_ifs with hrad
      · exact ⟨_, rfl⟩
      · apply ih
        have hne : dt ≠ 0 := ne_of_gt hdt
        have heq : (maxT - (st.time + dt)) / dt =
            (maxT - st.time) / dt - 1 := by
          field_simp
          try ring
        show (maxT - (st.time + dt)) / dt < (fuel : ℚ)
        rw [heq]
        push_cast at hlt
        linarith
    · exact ⟨.stop st, rfl⟩

theorem simulateRollPhase_some (P : Prim) (pos vel : Vec3)
    (t0 pd : ℚ) (field : FieldConfig) (options : SimOptions)
    (hdt : 0 < options.timeStep.getD DEFAULT_TIME_STEP) :
    ∃ rr, simulateRollPhase P pos vel t0 pd field options = some rr := by
  obtain ⟨e, he⟩ := rollGo_some P
    (normalise2D P vel.x vel.y) (decayRateForFriction field.friction)
    (options.timeStep.getD DEFAULT_TIME_STEP)
    (options.maxTime.getD MAX_SIMULATION_TIME) field.boundaryRadius hdt
    (natFuel (options.maxTime.getD MAX_SIMULATION_TIME)
      (options.timeStep.getD DEFAULT_TIME_STEP) t0)
    { time := t0, speed := magnitude2D P vel.x vel.y, posX := pos.x
      posY := pos.y, cumDist := pd, samplesRev := [] }
    (natFuel_gt _ _ _ hdt)
  rw [simulateRollPhase]
  dsimp only
  rw [he]
  cases e with
  | stop st => exact ⟨_, rfl⟩
  | boundary st b => exact ⟨_, rfl⟩

theorem computeBallPath_some (P : Prim) (shot : Shot) (field : FieldConfig)
    (options : SimOptions)
    (hdt : 0 < options.timeStep.getD DEFAULT_TIME_STEP) :
    ∃ r, computeBallPath P shot field options = some r := by
  obtain ⟨e, he⟩ := flightGo_some P field
    (computeSpinInfluence shot.spinRpm shot.speed)
    (options.timeStep.getD DEFAULT_TIME_STEP)
    (options.maxTime.getD MAX_SIMULATION_TIME) hdt
    (natFuel (options.maxTime.getD MAX_SIMULATION_TIME)
      (options.timeStep.getD DEFAULT_TIME_STEP) 0)
    (initialFlightState P shot)
    (natFuel_gt _ _ _ hdt)
  rw [computeBallPath]
  dsimp only
  rw [he]
  cases e with
  | timeout st => exact ⟨_, rfl⟩
  | boundary st b six => exact ⟨_, rfl⟩
  | roll st rt rp rv rc =>
    dsimp only
    obtain ⟨rr, hrr⟩ := simulateRollPhase_some P rp rv rt rc field options
      hdt
    rw [hrr]
    exact ⟨_, rfl⟩

theorem flightStep_time (P : Prim) (field : FieldConfig) (si dt : ℚ)
    (st : FlightState) :
    (stepState (flightStep P field si dt st)).time = st.time + dt := by
  unfold flightStep
  dsimp only
  split_ifs <;> rfl

theorem flightStep_samples_bound (P : Prim) (field : FieldConfig)
    (si dt B : ℚ) (st : FlightState)
    (hnew : st.time + dt ≤ B)
    (hsam : ∀ x ∈ st.samplesRev, x.time ≤ B) :
    ∀ x ∈ (stepState (flightStep P field si dt st)).samplesRev,
      x.time ≤ B := by
  intro x hx
  unfold flightStep at hx
  dsimp only at hx
  split_ifs at hx <;> simp only [stepState, exitState] at hx <;>
    first
      | exact hsam x hx
      | (rcases List.mem_cons.mp hx with hx | hx
         · subst hx
           exact hnew
         · first
             | exact hsam x hx
             | (rcases List.mem_cons.mp hx with hx | hx
                · subst hx
                  exact hnew
                · exact hsam x hx))

theorem flightStep_roll_time (P : Prim) (field : FieldConfig) (si dt : ℚ)
    (st st' : FlightState) (rt : ℚ) (rp rv : Vec3) (rc : ℚ)
    (h : flightStep P field si dt st = .exit (.roll st' rt rp rv rc)) :
    rt = st.time + dt := by
  unfold flightStep at h
  dsimp only at h
  split_ifs at h <;>
    first
      | (injection h with h1
         first
           | (injection h1 with h2 h3 h4 h5 h6
              exact h3.symm)
           | injection h1)
      | injection h

theorem flightGo_bound (P : Prim) (field : FieldConfig)
    (si dt maxT B : ℚ) (hB : maxT + dt ≤ B) :
    ∀ (fuel : ℕ) (st : FlightState) (e : FlightExit),
      flightGo P field si dt maxT fuel st = some e →
      st.time ≤ B → (∀ x ∈ st.samplesRev, x.time ≤ B) →
      (exitState e).time ≤ B ∧
      (∀ x ∈ (exitState e).samplesRev, x.time ≤ B) ∧
      (∀ st' rt rp rv rc, e = .roll st' rt rp rv rc → rt ≤ B) := by
  intro fuel
  induction fuel with
  | zero =>
    intro st e h ht hsam
    rw [flightGo] at h
    split_ifs at h with hguard
    obtain rfl := Option.some.inj h
    refine ⟨ht, hsam, ?_⟩
    intro st' rt rp rv rc he
    cases he
  | succ fuel ih =>
    intro st e h ht hsam
    rw [flightGo] at h
    split_ifs at h with hguard
    · have hnew : st.time + dt ≤ B := by linarith [hguard]
      cases hstep : flightStep P field si dt st with
      | exit eo =>
        rw [hstep] at h
        obtain rfl := Option.some.inj h
        have h1 := flightStep_time P field si dt st
        rw [hstep] at h1
        simp only [stepState] at h1
        have h2 := flightStep_samples_bound P field si dt B st hnew hsam
        rw [hstep] at h2
        simp only [stepState] at h2
        refine ⟨by rw [h1]; exact hnew, h2, ?_⟩
        intro st' rt rp rv rc he
        subst he
        rw [flightStep_roll_time P field si dt st st' rt rp rv rc hstep]
        exact hnew
      | cont st' =>
        rw [hstep] at h
        have h1 := flightStep_time P field si dt st
        rw [hstep] at h1
        simp only [stepState] at h1
        have h2 := flightStep_samples_bound P field si dt B st hnew hsam
        rw [hstep] at h2
        simp only [stepState] at h2
        exact ih st' e h (by rw [h1]; exact hnew) h2
    · obtain rfl := Option.some.inj h
      refine ⟨ht, hsam, ?_⟩
      intro st' rt rp rv rc he
      cases he

theorem rollGo_bound (P : Prim) (dir : Vec2) (rate dt maxT bRadius B : ℚ)
    (hB : maxT + dt ≤ B) :
    ∀ (fuel : ℕ) (st : RollState) (e : RollExit),
      rollGo P dir rate dt maxT bRadius fuel st = some e →
      st.time ≤ B → (∀ x ∈ st.samplesRev, x.time ≤ B) →
      (rollExitState e).time ≤ B ∧
      (∀ x ∈ (rollExitState e).samplesRev, x.time ≤ B) := by
  intro fuel
  induction fuel with
  | zero =>
    intro st e h ht hsam
    rw [rollGo] at h
    split_ifs at h with hguard
    obtain rfl := Option.some.inj h
    exact ⟨ht, hsam⟩
  | succ fuel ih =>
    intro st e h ht hsam
    rw [rollGo] at h
    split_ifs at h with hguard
    · have hnew : st.time + dt ≤ B := by linarith [hguard.1]
      dsimp only at h
      split_ifs at h with hrad
      · obtain rfl := Option.some.inj h
        simp only [rollExitState]
        refine ⟨hnew, ?_⟩
        intro x hx
        rcases List.mem_cons.mp hx with hx | hx
        · subst hx
          exact hnew
        · rcases List.mem_cons.mp hx with hx | hx
          · subst hx
            exact hnew
          · exact hsam x hx
      · refine ih _ e h hnew ?_
        intro x hx
        rcases List.mem_cons.mp hx with hx | hx
        · subst hx
          exact hnew
        · exact hsam x hx
    · obtain rfl := Option.some.inj h
      exact ⟨ht, hsam⟩

theorem simulateRollPhase_bound (P : Prim) (pos vel : Vec3) (t0 pd : ℚ)
    (field : FieldConfig) (options : SimOptions) (rr : RollPhaseResult)
    (B : ℚ)
    (h : simulateRollPhase P pos vel t0 pd field options = some rr)
    (hB : options.maxTime.getD MAX_SIMULATION_TIME +
      options.timeStep.getD DEFAULT_TIME_STEP ≤ B)
    (ht0 : t0 ≤ B) :
    ∀ x ∈ rr.samples, x.time ≤ B := by
  rw [simulateRollPhase] at h
  dsimp only at h
  cases hr : rollGo P (normalise2D P vel.x vel.y)
      (decayRateForFriction field.friction)
      (options.timeStep.getD DEFAULT_TIME_STEP)
      (options.maxTime.getD MAX_SIMULATION_TIME) field.boundaryRadius
      (natFuel (options.maxTime.getD MAX_SIMULATION_TIME)
        (options.timeStep.getD DEFAULT_TIME_STEP) t0)
      { time := t0, speed := magnitude2D P vel.x vel.y, posX := pos.x
        posY := pos.y, cumDist := pd, samplesRev := [] } with
  | none => rw [hr] at h; cases h
  | some e =>
    rw [hr] at h
    have hb := rollGo_bound P (normalise2D P vel.x vel.y)
      (decayRateForFriction field.friction)
      (options.timeStep.getD DEFAULT_TIME_STEP)
      (options.maxTime.getD MAX_SIMULATION_TIME) field.boundaryRadius B hB
      _ _ _ hr ht0 (by intro x hx; simp at hx)
    cases e with
    | stop st =>
      simp only [rollExitState] at hb
      dsimp only at h
      obtain rfl := Option.some.inj h
      intro x hx
      dsimp only at hx
      rw [List.mem_reverse] at hx
      rcases List.mem_cons.mp hx with hx | hx
      · subst hx
        exact hb.1
      · exact hb.2 x hx
    | boundary st b =>
      simp only [rollExitState] at hb
      dsimp only at h
      obtain rfl := Option.some.inj h
      intro x hx
      dsimp only at hx
      rw [List.mem_reverse] at hx
      exact hb.2 x hx

/-- C8 amended: for every shot, field and options whose timeStep is
positive (the default 0.02 s included), computeBallPath terminates, and
every emitted sample time is at most max(0, maxTime) + timeStep: the final
loop step may overshoot maxTime by less than one timeStep, so the bound
maxTime itself does not hold exactly. -/
theorem c8_terminates_within_bound (P : Prim) (shot : Shot)
    (field : FieldConfig) (options : SimOptions)
    (hdt : 0 < options.timeStep.getD DEFAULT_TIME_STEP) :
    ∃ r, computeBallPath P shot field options = some r ∧
      ∀ x ∈ r.samples, x.time ≤
        max 0 (options.maxTime.getD MAX_SIMULATION_TIME) +
          options.timeStep.getD DEFAULT_TIME_STEP := by
  have hB : options.maxTime.getD MAX_SIMULATION_TIME +
      options.timeStep.getD DEFAULT_TIME_STEP ≤
      max 0 (options.maxTime.getD MAX_SIMULATION_TIME) +
        options.timeStep.getD DEFAULT_TIME_STEP := by
    have := le_max_right (0 : ℚ) (options.maxTime.getD MAX_SIMULATION_TIME)
    linarith
  have hB0 : (0 : ℚ) ≤
      max 0 (options.maxTime.getD MAX_SIMULATION_TIME) +
        options.timeStep.getD DEFAULT_TIME_STEP := by
    have := le_max_left (0 : ℚ) (options.maxTime.getD MAX_SIMULATION_TIME)
    linarith
  obtain ⟨e, he⟩ := flightGo_some P field
    (computeSpinInfluence shot.spinRpm shot.speed)
    (options.timeStep.getD DEFAULT_TIME_STEP)
    (options.maxTime.getD MAX_SIMULATION_TIME) hdt
    (natFuel (options.maxTime.getD MAX_SIMULATION_TIME)
      (options.timeStep.getD DEFAULT_TIME_STEP) 0)
    (initialFlightState P shot)
    (natFuel_gt _ _ _ hdt)
  have hb := flightGo_bound P field
    (computeSpinInfluence shot.spinRpm shot.speed)
    (options.timeStep.getD DEFAULT_TIME_STEP)
    (options.maxTime.getD MAX_SIMULATION_TIME) _ hB _ _ _ he hB0
    (by
      intro x hx
      simp only [initialFlightState, List.mem_singleton] at hx
      subst hx
      exact hB0)
  rw [computeBallPath]
  dsimp only
  rw [he]
  cases e with
  | timeout st =>
    simp only [exitState] at hb
    refine ⟨_, rfl, ?_⟩
    intro x hx
    dsimp only at hx
    rw [List.mem_reverse] at hx
    rcases List.mem_cons.mp hx with hx | hx
    · subst hx
      exact hb.1
    · exact hb.2.1 x hx
  | boundary st b six =>
    simp only [exitState] at hb
    refine ⟨_, rfl, ?_⟩
    intro x hx
    dsimp only at hx
    rw [List.mem_reverse] at hx
    exact hb.2.1 x hx
  | roll st rt rp rv rc =>
    simp only [exitState] at hb
    dsimp only
    obtain ⟨rr, hrr⟩ := simulateRollPhase_some P rp rv rt rc field options
      hdt
    rw [hrr]
    refine ⟨_, rfl, ?_⟩
    intro x hx
    dsimp only at hx
    rcases List.mem_append.mp hx with hx | hx
    · exact hb.2.1 x (List.mem_reverse.mp hx)
    · exact simulateRollPhase_bound P rp rv rt rc field options rr _ hrr hB
        (hb.2.2 st rt rp rv rc rfl) x hx

/-- Witness for C8 at the concrete shot and default options. -/
theorem c8_witness :
    ∃ r, computeBallPath prim0 shotA fieldA {} = some r ∧
      ∀ x ∈ r.samples, x.time ≤
        max 0 (({} : SimOptions).maxTime.getD MAX_SIMULATION_TIME) +
          ({} : SimOptions).timeStep.getD DEFAULT_TIME_STEP :=
  c8_terminates_within_bound prim0 shotA fieldA {}
    (by norm_num [DEFAULT_TIME_STEP])


theorem dragStep_fix : dragStepVelocity prim0 0 ⟨0, 1, 0⟩ = ⟨0, 1, 0⟩ := by
  decide

theorem flightStep_fix (d : ℚ) (L Bv : List Sample) :
    flightStep prim0 fieldA 0 0 ⟨0, ⟨0, 0, 1⟩, ⟨0, 1, 0⟩, d, L, Bv⟩ =
      .cont ⟨0, ⟨0, 0, 1⟩, ⟨0, 1, 0⟩, d,
        createSample prim0 0 ⟨0, 0, 1⟩ ⟨0, 1, 0⟩ .flight d :: L, Bv⟩ := by
  unfold flightStep
  dsimp only
  rw [dragStep_fix]
  norm_num [fieldA, magnitude2D, ratSqrt, createSample, magnitude3D,
    distFromOrigin, Prim.sqrtQ, prim0]

theorem flightGo_fix :
    ∀ (fuel : ℕ) (d : ℚ) (L Bv : List Sample),
      flightGo prim0 fieldA 0 0 MAX_SIMULATION_TIME fuel
        ⟨0, ⟨0, 0, 1⟩, ⟨0, 1, 0⟩, d, L, Bv⟩ = none := by
  intro fuel
  induction fuel with
  | zero =>
    intro d L Bv
    rw [flightGo]
    rw [if_pos (show (0 : ℚ) < MAX_SIMULATION_TIME by
      norm_num [MAX_SIMULATION_TIME])]
  | succ fuel ih =>
    intro d L Bv
    rw [flightGo]
    rw [if_pos (show (0 : ℚ) < MAX_SIMULATION_TIME by
      norm_num [MAX_SIMULATION_TIME])]
    rw [flightStep_fix d L Bv]
    exact ih d _ Bv

/-- C8 counterexample: with timeStep = 0 the flight loop of computeBallPath
never terminates for the flat 1 m/s shot launched at height 1 m (the loop
state repeats for ever, no bounce or boundary exit is reachable, and the
time guard never trips), refuting the claim that the simulation terminates
regardless of the parameter values supplied. -/
theorem c8_counterexample :
    ¬ FlightLoopTerminates prim0 fieldA
      (computeSpinInfluence shotFix.spinRpm shotFix.speed) 0
      MAX_SIMULATION_TIME (initialFlightState prim0 shotFix) := by
  rintro ⟨fuel, hfuel⟩
  apply hfuel
  have h0 : computeSpinInfluence shotFix.spinRpm shotFix.speed = 0 := by
    decide
  have h1 : initialFlightState prim0 shotFix =
      ⟨0, ⟨0, 0, 1⟩, ⟨0, 1, 0⟩, 0,
        [createSample prim0 0 ⟨0, 0, 1⟩ ⟨0, 1, 0⟩ .flight 0
          (some .launch)], []⟩ := by
    decide
  rw [h0, h1]
  exact flightGo_fix fuel 0 _ []

end Cricket
